import Mathlib

/-!
Verification of the SIFT document/layer-set model (`sift/model/document.py`).

The Python source is shallowly embedded: the `prez` namedtuple becomes the
`Prez` structure, `DocLayerStack` becomes a structure holding the backing
list `store` (`_store`) and the lazily rebuilt uuid-to-row cache `u2r`
(`_u2r`); Python dicts become association lists with insertion-order,
overwrite-on-repeat semantics; Python exceptions become `Except` results
(the pre-raise mutated state is kept whenever the source mutates in place
before raising).  UUIDs, colormap names, color limits and mixing modes are
plain tokens modelled as `Nat`.
-/

/-- KIND.IMAGE tag. -/
def KIND_IMAGE : Nat := 1
/-- KIND.RGB tag. -/
def KIND_RGB : Nat := 2
/-- mixing.NORMAL constant. -/
def MIX_NORMAL : Nat := 0

/-- INFO.UUID metadata key. -/
def INFO_UUID : Nat := 0
/-- INFO.KIND metadata key. -/
def INFO_KIND : Nat := 1
/-- INFO.CLIM metadata key. -/
def INFO_CLIM : Nat := 2
/-- INFO.NAME metadata key. -/
def INFO_NAME : Nat := 3

/-- The `prez` namedtuple: presentation information for a layer. -/
structure Prez where
  uuid : Nat
  kind : Nat
  visible : Bool
  a_order : Option Nat
  colormap : Option Nat
  climits : Nat
  mixing : Nat
deriving DecidableEq

/-- Python dict lookup on an association list (first binding wins; dicts
built through `dictSet` keep keys unique). -/
def dictGet {β : Type} (m : List (Nat × β)) (k : Nat) : Option β :=
  (m.find? (fun kv => kv.1 = k)).map (fun kv => kv.2)

/-- Python dict assignment `m[k] = v`: overwrite in place if the key is
present, append otherwise. -/
def dictSet {β : Type} (m : List (Nat × β)) (k : Nat) (v : β) : List (Nat × β) :=
  if (m.find? (fun kv => kv.1 = k)).isSome then
    m.map (fun kv => if kv.1 = k then (k, v) else kv)
  else m ++ [(k, v)]

/-- Python `dict.update`: merge the bindings of `new` into `m` in order. -/
def dictMerge {β : Type} (m new : List (Nat × β)) : List (Nat × β) :=
  new.foldl (fun acc kv => dictSet acc kv.1 kv.2) m

/-- Python `del m[k]`: raises `KeyError` when the key is absent. -/
def dictDel {β : Type} (m : List (Nat × β)) (k : Nat) : Except Unit (List (Nat × β)) :=
  if (m.find? (fun kv => kv.1 = k)).isSome then
    .ok (m.filter (fun kv => ¬ kv.1 = k))
  else .error ()

/-- The comprehension `dict((p.uuid, i) for (i, p) in enumerate(self._store))`
as the raw binding list, enumerated from `i0`. -/
def buildU2R : List Prez → Nat → List (Nat × Nat)
  | [], _ => []
  | p :: r, i0 => (p.uuid, i0) :: buildU2R r (i0 + 1)

/-- Lookup in the uuid-to-row dict with Python dict construction semantics:
a later binding of the same key overwrites an earlier one. -/
def u2rGetA (m : List (Nat × Nat)) (u : Nat) (acc : Option Nat) : Option Nat :=
  match m with
  | [] => acc
  | kv :: r => u2rGetA r u (if kv.1 = u then some kv.2 else acc)

/-- `self.uuid2row.get(u, None)`. -/
def u2rGet (m : List (Nat × Nat)) (u : Nat) : Option Nat :=
  u2rGetA m u none

/-- `DocLayerStack`: the backing list `_store` plus the lazily rebuilt
uuid-to-row cache `_u2r` (`none` when invalidated). -/
structure DocLayerStack where
  store : List Prez
  u2r : Option (List (Nat × Nat))
deriving DecidableEq

namespace DocLayerStack

/-- Uuids of the entries, in row order. -/
def uuidsOf (s : DocLayerStack) : List Nat :=
  s.store.map Prez.uuid

/-- The `uuid2row` property: return the cache, rebuilding (and storing) it
when it is `none`. -/
def uuid2rowForce (s : DocLayerStack) : List (Nat × Nat) × DocLayerStack :=
  match s.u2r with
  | some m => (m, s)
  | none => (buildU2R s.store 0, ⟨s.store, some (buildU2R s.store 0)⟩)

/-- `__getitem__` with a UUID argument: `self.uuid2row.get(index, None)`.
Forces the cache, so the stack state it returns may differ. -/
def getUUID (s : DocLayerStack) (u : Nat) : Option Nat × DocLayerStack :=
  (u2rGet (uuid2rowForce s).1 u, (uuid2rowForce s).2)

/-- `__setitem__`: replace in place for `0 <= index < len`, append for
`index == len`, raise `IndexError` otherwise; invalidates the cache. -/
def setItem (s : DocLayerStack) (index : Nat) (value : Prez) : Except Unit DocLayerStack :=
  if index < s.store.length then .ok ⟨s.store.set index value, none⟩
  else if index = s.store.length then .ok ⟨s.store ++ [value], none⟩
  else .error ()

/-- `__delitem__` with an integer index: `del self._store[index]`
(raises `IndexError` when out of range, before the cache is cleared). -/
def delAt (s : DocLayerStack) (index : Nat) : Except Unit DocLayerStack :=
  if index < s.store.length then .ok ⟨s.store.eraseIdx index, none⟩
  else .error ()

/-- `__delitem__` with the slice `start : start + count`
(`del self.current_layer_set[row:row+count]`); Python slice deletion clamps
and never raises. -/
def delRange (s : DocLayerStack) (start count : Nat) : DocLayerStack :=
  ⟨s.store.take start ++ s.store.drop (start + count), none⟩

/-- The clamped position at which Python `list.insert` places its value. -/
def pyInsertPos (len : Nat) (i : Int) : Nat :=
  if i < 0 then len - min (-i).toNat len else min i.toNat len

/-- `insert`: plain Python `list.insert`, which clamps any index into
range and never raises; invalidates the cache. -/
def insert (s : DocLayerStack) (i : Int) (value : Prez) : DocLayerStack :=
  ⟨s.store.take (pyInsertPos s.store.length i) ++
     value :: s.store.drop (pyInsertPos s.store.length i), none⟩

/-- `clear_animation_order`: writes through `self._store[i] = ...` directly,
so the cache field is left untouched. -/
def clearAnimationOrder (s : DocLayerStack) : DocLayerStack :=
  ⟨s.store.map (fun q => { q with a_order := none }), s.u2r⟩

/-- A lexicographic order on `(a_order, uuid)` pairs, the order Python
`list.sort` uses on these tuples. -/
def lexRel (a b : Nat × Nat) : Prop :=
  a.1 < b.1 ∨ (a.1 = b.1 ∧ a.2 ≤ b.2)

instance : DecidableRel lexRel := fun a b => by
  unfold lexRel; infer_instance

/-- The `(x.a_order, x.uuid)` pairs of the entries participating in
animation (`a_order` non-null), in row order. -/
def animKeyPairs (s : DocLayerStack) : List (Nat × Nat) :=
  (s.store.filter (fun x => x.a_order.isSome)).map
    (fun x => (x.a_order.getD 0, x.uuid))

/-- The `animation_order` property (getter): filter the entries with a
non-null ordinal, sort the `(a_order, uuid)` pairs, return the uuids. -/
def animationOrder (s : DocLayerStack) : List Nat :=
  (List.insertionSort lexRel (animKeyPairs s)).map Prod.snd

/-- Loop body of the `animation_order` setter: look each uuid up through
`self[lu]` (which forces the cache) and write the ordinal through
`self._store[idx] = ...` (which does not invalidate the cache).  A lookup
miss raises in the source; the mutated-so-far stack is kept and `false`
returned. -/
def setAnimationOrderAux : List Nat → Nat → DocLayerStack → DocLayerStack × Bool
  | [], _, s => (s, true)
  | lu :: rest, nth, s =>
    match (getUUID s lu).1 with
    | none => ((getUUID s lu).2, false)
    | some idx =>
      match (getUUID s lu).2.store[idx]? with
      | none => ((getUUID s lu).2, false)
      | some q =>
        setAnimationOrderAux rest (nth + 1)
          ⟨(getUUID s lu).2.store.set idx { q with a_order := some nth },
           (getUUID s lu).2.u2r⟩

/-- The `animation_order` setter: clear every ordinal, then assign
`0..len-1` in sequence order, aborting on the first unknown identifier. -/
def setAnimationOrder (s : DocLayerStack) (seqIds : List Nat) : DocLayerStack × Bool :=
  setAnimationOrderAux seqIds 0 (clearAnimationOrder s)

/-- Cache coherence: the cache is either invalidated or exactly the dict
rebuilt from the current store. -/
def cacheOk (s : DocLayerStack) : Prop :=
  s.u2r = none ∨ s.u2r = some (buildU2R s.store 0)

end DocLayerStack

/-- First row carrying the given uuid (specification-side index function). -/
def idxOfUuid : List Prez → Nat → Option Nat
  | [], _ => none
  | p :: r, u => if p.uuid = u then some 0 else (idxOfUuid r u).map (· + 1)

/-- First position of a value in a list of naturals. -/
def idxOfNat (u : Nat) : List Nat → Option Nat
  | [] => none
  | v :: r => if v = u then some 0 else (idxOfNat u r).map (· + 1)

section CacheLemmas

open DocLayerStack

lemma keys_buildU2R (store : List Prez) (i0 : Nat) :
    (buildU2R store i0).map Prod.fst = store.map Prez.uuid := by
  induction store generalizing i0 with
  | nil => rfl
  | cons p r ih => simp [buildU2R, ih]

lemma find?_buildU2R (store : List Prez) (i0 u : Nat) :
    (buildU2R store i0).find? (fun kv => kv.1 = u) =
      (idxOfUuid store u).map (fun j => (u, i0 + j)) := by
  induction store generalizing i0 with
  | nil => rfl
  | cons p r ih =>
    by_cases h : p.uuid = u
    · rw [buildU2R, List.find?_cons_of_pos _ (by simpa using h), idxOfUuid, if_pos h]
      simp [h]
    · rw [buildU2R, List.find?_cons_of_neg _ (by simpa using h), idxOfUuid, if_neg h,
        ih (i0 + 1)]
      cases idxOfUuid r u with
      | none => simp
      | some j => simp [Nat.add_assoc, Nat.add_comm 1 j]

lemma u2rGetA_not_mem (m : List (Nat × Nat)) (u : Nat) (acc : Option Nat)
    (h : u ∉ m.map Prod.fst) : u2rGetA m u acc = acc := by
  induction m generalizing acc with
  | nil => rfl
  | cons kv r ih =>
    simp only [List.map_cons, List.mem_cons] at h
    push_neg at h
    rw [u2rGetA, if_neg (fun hh => h.1 hh.symm), ih _ h.2]

lemma u2rGetA_nodup (m : List (Nat × Nat)) (u : Nat) (acc : Option Nat)
    (h : (m.map Prod.fst).Nodup) :
    u2rGetA m u acc =
      match m.find? (fun kv => kv.1 = u) with
      | some kv => some kv.2
      | none => acc := by
  induction m generalizing acc with
  | nil => rfl
  | cons kv r ih =>
    simp only [List.map_cons, List.nodup_cons] at h
    by_cases hk : kv.1 = u
    · rw [u2rGetA, if_pos hk, List.find?_cons_of_pos _ (by simpa using hk)]
      rw [u2rGetA_not_mem r u (some kv.2) (by rw [← hk]; exact h.1)]
    · rw [u2rGetA, if_neg hk, List.find?_cons_of_neg _ (by simpa using hk), ih acc h.2]

lemma u2rGet_build (store : List Prez) (i0 u : Nat)
    (h : (store.map Prez.uuid).Nodup) :
    u2rGet (buildU2R store i0) u = (idxOfUuid store u).map (· + i0) := by
  rw [u2rGet, u2rGetA_nodup _ _ _ (by rw [keys_buildU2R]; exact h), find?_buildU2R]
  cases idxOfUuid store u with
  | none => rfl
  | some j => simp [Nat.add_comm]

lemma idxOfUuid_eq_none (store : List Prez) (u : Nat) :
    idxOfUuid store u = none ↔ u ∉ store.map Prez.uuid := by
  induction store with
  | nil => simp [idxOfUuid]
  | cons p r ih =>
    by_cases h : p.uuid = u
    · simp [idxOfUuid, h]
    · have h' : ¬ u = p.uuid := fun hh => h hh.symm
      rw [idxOfUuid, if_neg h]
      simp [Option.map_eq_none', ih, h']

lemma idxOfUuid_some_iff (store : List Prez) (u i : Nat)
    (h : (store.map Prez.uuid).Nodup) :
    idxOfUuid store u = some i ↔ (store[i]?).map Prez.uuid = some u := by
  induction store generalizing i with
  | nil => simp [idxOfUuid]
  | cons p r ih =>
    simp only [List.map_cons, List.nodup_cons] at h
    by_cases hp : p.uuid = u
    · rw [idxOfUuid, if_pos hp]
      cases i with
      | zero => simp [hp]
      | succ j =>
        simp only [List.getElem?_cons_succ]
        constructor
        · intro hc; simp at hc
        · intro hc
          exfalso
          apply h.1
          rcases Option.map_eq_some'.mp hc with ⟨q, hq, hqu⟩
          rw [hp]
          exact hqu ▸ List.mem_map_of_mem _ (List.getElem?_mem hq)
    · rw [idxOfUuid, if_neg hp]
      cases i with
      | zero =>
        simp only [List.getElem?_cons_zero]
        constructor
        · intro hc
          rcases Option.map_eq_some'.mp hc with ⟨j, _, hj⟩
          omega
        · intro hc
          exact absurd (Option.some.inj hc) (fun hh => hp hh)
      | succ j =>
        simp only [List.getElem?_cons_succ]
        rw [← ih h.2 (i := j)]
        cases hr : idxOfUuid r u with
        | none => simp
        | some k => simp

end CacheLemmas

section StackInvariance

open DocLayerStack

lemma buildU2R_congr (s1 s2 : List Prez) (i0 : Nat)
    (h : s1.map Prez.uuid = s2.map Prez.uuid) : buildU2R s1 i0 = buildU2R s2 i0 := by
  induction s1 generalizing s2 i0 with
  | nil => cases s2 with
    | nil => rfl
    | cons q r => simp at h
  | cons p r ih =>
    cases s2 with
    | nil => simp at h
    | cons q r2 =>
      simp only [List.map_cons, List.cons.injEq] at h
      rw [buildU2R, buildU2R, h.1, ih r2 (i0 + 1) h.2]

lemma uuids_map_clear (s : List Prez) :
    (s.map (fun q => { q with a_order := none })).map Prez.uuid = s.map Prez.uuid := by
  induction s with
  | nil => rfl
  | cons p r ih => simp [ih]

lemma set_getElem?_self {α : Type} (l : List α) (n : Nat) (a : α)
    (h : l[n]? = some a) : l.set n a = l := by
  induction l generalizing n with
  | nil => simp at h
  | cons x r ih =>
    cases n with
    | zero =>
      simp only [List.getElem?_cons_zero, Option.some.injEq] at h
      simp [h]
    | succ m =>
      simp only [List.getElem?_cons_succ] at h
      simp [List.set, ih m h]

lemma uuids_set_same (store : List Prez) (idx : Nat) (q q' : Prez)
    (hq : store[idx]? = some q) (hu : q'.uuid = q.uuid) :
    (store.set idx q').map Prez.uuid = store.map Prez.uuid := by
  rw [List.map_set]
  apply set_getElem?_self
  rw [List.getElem?_map, hq, hu]
  rfl

lemma cacheOk_clear (s : DocLayerStack) (h : s.cacheOk) :
    (clearAnimationOrder s).cacheOk := by
  cases h with
  | inl h => exact Or.inl h
  | inr h =>
    right
    show s.u2r = some (buildU2R (s.store.map _) 0)
    rw [h, buildU2R_congr (s.store.map _) s.store 0 (uuids_map_clear s.store)]

lemma uuid2rowForce_spec (s : DocLayerStack) (h : s.cacheOk) :
    (uuid2rowForce s).1 = buildU2R s.store 0 ∧
    (uuid2rowForce s).2.store = s.store ∧
    (uuid2rowForce s).2.u2r = some (buildU2R s.store 0) := by
  cases h with
  | inl h => simp [uuid2rowForce, h]
  | inr h => simp [uuid2rowForce, h]

lemma getUUID_spec (s : DocLayerStack) (u : Nat) (hc : s.cacheOk)
    (hnd : (s.store.map Prez.uuid).Nodup) :
    (getUUID s u).1 = idxOfUuid s.store u ∧
    (getUUID s u).2.store = s.store ∧
    (getUUID s u).2.u2r = some (buildU2R s.store 0) := by
  obtain ⟨h1, h2, h3⟩ := uuid2rowForce_spec s hc
  refine ⟨?_, h2, h3⟩
  rw [getUUID]
  show u2rGet (uuid2rowForce s).1 u = _
  rw [h1, u2rGet_build _ 0 _ hnd]
  cases idxOfUuid s.store u <;> simp

end StackInvariance

section AnimationOrderSetter

open DocLayerStack

lemma idxOfNat_eq_none (u : Nat) (l : List Nat) (h : u ∉ l) : idxOfNat u l = none := by
  induction l with
  | nil => rfl
  | cons v r ih =>
    simp only [List.mem_cons] at h
    push_neg at h
    rw [idxOfNat, if_neg (fun hv => h.1 hv.symm), ih h.2]
    rfl

lemma getUUID_state (s : DocLayerStack) (u : Nat) (hc : s.cacheOk) :
    (getUUID s u).2.store = s.store ∧ (getUUID s u).2.u2r = some (buildU2R s.store 0) := by
  obtain ⟨_, h2, h3⟩ := uuid2rowForce_spec s hc
  exact ⟨h2, h3⟩

lemma setAOAux_cons_miss (lu : Nat) (rest : List Nat) (nth : Nat) (s : DocLayerStack)
    (h : (getUUID s lu).1 = none) :
    setAnimationOrderAux (lu :: rest) nth s = ((getUUID s lu).2, false) := by
  simp [setAnimationOrderAux, h]

lemma setAOAux_cons_hit (lu : Nat) (rest : List Nat) (nth : Nat) (s : DocLayerStack)
    (idx : Nat) (q : Prez) (h : (getUUID s lu).1 = some idx)
    (h2 : (getUUID s lu).2.store[idx]? = some q) :
    setAnimationOrderAux (lu :: rest) nth s =
      setAnimationOrderAux rest (nth + 1)
        ⟨(getUUID s lu).2.store.set idx { q with a_order := some nth },
         (getUUID s lu).2.u2r⟩ := by
  simp [setAnimationOrderAux, h, h2]

lemma setAnimationOrderAux_cacheOk (seqIds : List Nat) :
    ∀ (nth : Nat) (s : DocLayerStack), s.cacheOk →
      (setAnimationOrderAux seqIds nth s).1.cacheOk := by
  induction seqIds with
  | nil => intro nth s h; exact h
  | cons lu rest ih =>
    intro nth s h
    obtain ⟨hst, hu2r⟩ := getUUID_state s lu h
    have hforced : (getUUID s lu).2.cacheOk := by
      right; rw [hst, hu2r]
    cases hg : (getUUID s lu).1 with
    | none => rw [setAOAux_cons_miss lu rest nth s hg]; exact hforced
    | some idx =>
      cases hq : (getUUID s lu).2.store[idx]? with
      | none => simp [setAnimationOrderAux, hg, hq]; exact hforced
      | some q =>
        rw [setAOAux_cons_hit lu rest nth s idx q hg hq]
        apply ih
        right
        show (getUUID s lu).2.u2r = _
        rw [hu2r]
        congr 1
        apply buildU2R_congr
        dsimp only
        rw [uuids_set_same ((getUUID s lu).2.store) idx q
          { q with a_order := some nth } hq rfl, hst]

lemma uuid_ne_of_ne_idx (store : List Prez) (hnd : (store.map Prez.uuid).Nodup)
    {i j : Nat} {a b : Prez} (hi : store[i]? = some a) (hj : store[j]? = some b)
    (hij : i ≠ j) : a.uuid ≠ b.uuid := by
  intro he
  have h1 : idxOfUuid store b.uuid = some i := by
    rw [idxOfUuid_some_iff store b.uuid i hnd, hi, ← he]
    rfl
  have h2 : idxOfUuid store b.uuid = some j := by
    rw [idxOfUuid_some_iff store b.uuid j hnd, hj]
    rfl
  rw [h1] at h2
  exact hij (Option.some.inj h2)

lemma setAnimationOrderAux_spec (seqIds : List Nat) :
    ∀ (nth : Nat) (s : DocLayerStack),
      s.cacheOk → (s.store.map Prez.uuid).Nodup → seqIds.Nodup →
      (setAnimationOrderAux seqIds nth s).1.store.map Prez.uuid = s.store.map Prez.uuid ∧
      (setAnimationOrderAux seqIds nth s).2 =
        seqIds.all (fun u => u ∈ s.store.map Prez.uuid) ∧
      ∀ i : Nat, ((setAnimationOrderAux seqIds nth s).1.store[i]?).map Prez.a_order =
        (s.store[i]?).map (fun q =>
          match idxOfNat q.uuid
              (seqIds.takeWhile (fun u => u ∈ s.store.map Prez.uuid)) with
          | some k => some (nth + k)
          | none => q.a_order) := by
  induction seqIds with
  | nil =>
    intro nth s _ _ _
    refine ⟨rfl, rfl, fun i => ?_⟩
    cases hsi : s.store[i]? <;> simp [setAnimationOrderAux, idxOfNat, hsi]
  | cons lu rest ih =>
    intro nth s hc hnd hseq
    simp only [List.nodup_cons] at hseq
    obtain ⟨hg, hst, hu2r⟩ := getUUID_spec s lu hc hnd
    cases hidx : idxOfUuid s.store lu with
    | none =>
      have hmem : lu ∉ s.store.map Prez.uuid := (idxOfUuid_eq_none _ _).mp hidx
      rw [setAOAux_cons_miss lu rest nth s (by rw [hg, hidx])]
      refine ⟨by rw [hst], ?_, fun i => ?_⟩
      · rw [List.all_cons]
        have hd : (decide (lu ∈ s.store.map Prez.uuid)) = false := by
          simp [hmem]
        rw [hd]
        rfl
      · rw [hst]
        have htw : (lu :: rest).takeWhile
            (fun u => decide (u ∈ s.store.map Prez.uuid)) = [] := by
          simp [List.takeWhile, hmem]
        rw [htw]
        cases s.store[i]? <;> simp [idxOfNat]
    | some idx =>
      have hmem : lu ∈ s.store.map Prez.uuid := by
        by_contra hmem
        rw [(idxOfUuid_eq_none _ _).mpr hmem] at hidx
        cases hidx
      obtain ⟨q, hq, hqu⟩ :
          ∃ q, s.store[idx]? = some q ∧ q.uuid = lu := by
        have h := (idxOfUuid_some_iff s.store lu idx hnd).mp hidx
        rcases Option.map_eq_some'.mp h with ⟨q, hq, hqu⟩
        exact ⟨q, hq, hqu⟩
      have hq' : (getUUID s lu).2.store[idx]? = some q := by rw [hst, hq]
      rw [setAOAux_cons_hit lu rest nth s idx q (by rw [hg, hidx]) hq']
      have htw : (lu :: rest).takeWhile
          (fun u => decide (u ∈ s.store.map Prez.uuid)) =
          lu :: rest.takeWhile (fun u => decide (u ∈ s.store.map Prez.uuid)) := by
        simp [List.takeWhile, hmem]
      have htstore :
          (⟨(getUUID s lu).2.store.set idx { q with a_order := some nth },
            (getUUID s lu).2.u2r⟩ : DocLayerStack).store =
          s.store.set idx { q with a_order := some nth } := by rw [hst]
      have htuuids :
          (s.store.set idx { q with a_order := some nth }).map Prez.uuid =
          s.store.map Prez.uuid :=
        uuids_set_same s.store idx q { q with a_order := some nth } hq rfl
      have htc : DocLayerStack.cacheOk
          ⟨(getUUID s lu).2.store.set idx { q with a_order := some nth },
           (getUUID s lu).2.u2r⟩ := by
        right
        show (getUUID s lu).2.u2r = _
        rw [hu2r]
        congr 1
        apply buildU2R_congr
        dsimp only
        rw [hst, htuuids]
      obtain ⟨ih1, ih2, ih3⟩ :=
        ih (nth + 1)
          ⟨(getUUID s lu).2.store.set idx { q with a_order := some nth },
           (getUUID s lu).2.u2r⟩ htc
          (by dsimp only; rw [hst, htuuids]; exact hnd) hseq.2
      have hstore2 :
          (⟨(getUUID s lu).2.store.set idx { q with a_order := some nth },
            (getUUID s lu).2.u2r⟩ : DocLayerStack).store.map Prez.uuid =
          s.store.map Prez.uuid := by
        dsimp only; rw [hst, htuuids]
      refine ⟨by rw [ih1, hstore2], ?_, fun i => ?_⟩
      · rw [ih2]
        simp only [hstore2, hst, htuuids]
        rw [List.all_cons]
        have hd : (decide (lu ∈ s.store.map Prez.uuid)) = true := by
          simp [hmem]
        rw [hd, Bool.true_and]
      · rw [ih3 i, htw]
        simp only [hstore2, htstore, hst, htuuids]
        have hlen : idx < s.store.length := (List.getElem?_eq_some_iff.mp hq).1
        by_cases hi : i = idx
        · subst hi
          rw [List.getElem?_set_eq_of_lt _ hlen, hq]
          have hnotin : q.uuid ∉
              rest.takeWhile (fun u => decide (u ∈ s.store.map Prez.uuid)) := by
            rw [hqu]
            intro hin
            exact hseq.1 (List.takeWhile_subset _ hin)
          have hnone : idxOfNat q.uuid
              (rest.takeWhile (fun u => decide (u ∈ s.store.map Prez.uuid))) = none :=
            idxOfNat_eq_none _ _ hnotin
          have hsome : idxOfNat q.uuid
              (lu :: rest.takeWhile (fun u => decide (u ∈ s.store.map Prez.uuid))) =
              some 0 := by
            rw [idxOfNat, if_pos hqu.symm]
          simp only [Option.map_some', hnone, hsome, Nat.add_zero]
        · rw [List.getElem?_set_ne (fun hh => hi hh.symm)]
          cases hsi : s.store[i]? with
          | none => rfl
          | some q2 =>
            have hne : q2.uuid ≠ lu := by
              rw [← hqu]
              exact uuid_ne_of_ne_idx s.store hnd hsi hq hi
            have hcons : idxOfNat q2.uuid
                (lu :: rest.takeWhile (fun u => decide (u ∈ s.store.map Prez.uuid))) =
                (idxOfNat q2.uuid
                  (rest.takeWhile (fun u => decide (u ∈ s.store.map Prez.uuid)))).map
                  (· + 1) := by
              rw [idxOfNat, if_neg (fun hh => hne hh.symm)]
            cases hk : idxOfNat q2.uuid
                (rest.takeWhile (fun u => decide (u ∈ s.store.map Prez.uuid))) with
            | none => simp only [Option.map_some', hcons, hk, Option.map_none']
            | some k =>
              simp only [Option.map_some', hcons, hk, Option.some.injEq]
              omega

end AnimationOrderSetter

/-- Demo presentation entry with identifier 1. -/
def prezA : Prez := ⟨1, KIND_IMAGE, true, none, none, 0, MIX_NORMAL⟩
/-- Demo presentation entry with identifier 2. -/
def prezB : Prez := ⟨2, KIND_IMAGE, true, none, none, 0, MIX_NORMAL⟩
/-- Demo presentation entry with identifier 7 participating in animation. -/
def prezAnim : Prez := ⟨7, KIND_IMAGE, true, some 0, none, 0, MIX_NORMAL⟩

/-- Claim C1 counterexample: on a layer set holding one entry with ordinal 0,
`set_animation_order` with a single unknown identifier fails, yet the set is
left mutated (the ordinal was cleared before the failing lookup), refuting
the claimed abort-without-partial-mutation behavior. -/
theorem setAnimationOrder_mutates_on_failure :
    (DocLayerStack.setAnimationOrder ⟨[prezAnim], none⟩ [99]).2 = false ∧
    (DocLayerStack.setAnimationOrder ⟨[prezAnim], none⟩ [99]).1.store ≠ [prezAnim] := by
  decide

/-- Claim C1 (amended): `set_animation_order` clears every existing ordinal
and then assigns ordinals `0..k-1` along the longest prefix of identifiers
present in the set, in sequence order; it succeeds exactly when every
identifier is present, and on failure it aborts leaving the clears and
prefix assignments applied (partial mutation) rather than untouched. -/
theorem setAnimationOrder_clears_then_assigns (s : DocLayerStack) (seqIds : List Nat)
    (hc : s.cacheOk) (hnd : (s.store.map Prez.uuid).Nodup) (hseq : seqIds.Nodup) :
    (s.setAnimationOrder seqIds).1.store.map Prez.uuid = s.store.map Prez.uuid ∧
    (s.setAnimationOrder seqIds).2 =
      seqIds.all (fun u => u ∈ s.store.map Prez.uuid) ∧
    ∀ i : Nat, ((s.setAnimationOrder seqIds).1.store[i]?).map Prez.a_order =
      (s.store[i]?).map (fun q =>
        idxOfNat q.uuid (seqIds.takeWhile (fun u => u ∈ s.store.map Prez.uuid))) := by
  have hcc : (DocLayerStack.clearAnimationOrder s).cacheOk := cacheOk_clear s hc
  have hu : (DocLayerStack.clearAnimationOrder s).store.map Prez.uuid =
      s.store.map Prez.uuid := uuids_map_clear s.store
  obtain ⟨h1, h2, h3⟩ :=
    setAnimationOrderAux_spec seqIds 0 (DocLayerStack.clearAnimationOrder s) hcc
      (hu ▸ hnd) hseq
  refine ⟨?_, ?_, fun i => ?_⟩
  · rw [DocLayerStack.setAnimationOrder] at *
    rw [h1, hu]
  · rw [DocLayerStack.setAnimationOrder] at *
    rw [h2]
    simp only [hu]
  · rw [DocLayerStack.setAnimationOrder] at *
    rw [h3 i]
    simp only [hu]
    show ((s.store.map (fun q => { q with a_order := none }))[i]?).map _ = _
    rw [List.getElem?_map]
    cases hsi : s.store[i]? with
    | none => rfl
    | some q =>
      simp only [Option.map_some']
      cases hk : idxOfNat q.uuid
          (seqIds.takeWhile (fun u => decide (u ∈ s.store.map Prez.uuid))) with
      | none => simp [hk]
      | some k => simp [hk]

/-- Claim C1 amended-theorem witness: a concrete run in which identifier 2
is sequenced before identifier 1 and both ordinals are assigned. -/
theorem setAnimationOrder_clears_then_assigns_witness :
    ((DocLayerStack.setAnimationOrder ⟨[prezA, prezB], none⟩ [2, 1]).1.store[0]?).map
        Prez.a_order = some (some 1) ∧
    ((DocLayerStack.setAnimationOrder ⟨[prezA, prezB], none⟩ [2, 1]).1.store[1]?).map
        Prez.a_order = some (some 0) ∧
    (DocLayerStack.setAnimationOrder ⟨[prezA, prezB], none⟩ [2, 1]).2 = true := by
  obtain ⟨h1, h2, h3⟩ := setAnimationOrder_clears_then_assigns ⟨[prezA, prezB], none⟩
    [2, 1] (Or.inl rfl) (by decide) (by decide)
  refine ⟨(h3 0).trans (by decide), (h3 1).trans (by decide), h2.trans (by decide)⟩

/-- Claim C6 counterexample: inserting at index 1 into an empty layer set
(indices outside `[0, 0]`) does not fail with `IndexOutOfRange` and does not
leave the set unchanged: Python `list.insert` clamps and appends. -/
theorem insert_out_of_range_no_error :
    (DocLayerStack.insert ⟨[], none⟩ 1 prezA).store = [prezA] ∧
    (DocLayerStack.insert ⟨[], none⟩ 1 prezA).store ≠ [] := by
  decide

/-- Claim C6 (amended): `insert_entry(index, entry)` inserts at the position
when `0 <= index <= n` (appending when `index == n`), and never fails for an
index outside `[0, n]`: an index above `n` appends at the end, and a negative
index counts from the end, clamping at the front. -/
theorem insert_clamps (s : DocLayerStack) (i : Int) (v : Prez) :
    ((0 ≤ i ∧ i.toNat ≤ s.store.length) →
      (s.insert i v).store = s.store.take i.toNat ++ v :: s.store.drop i.toNat) ∧
    (((s.store.length : Int) < i) → (s.insert i v).store = s.store ++ [v]) ∧
    ((i < 0) →
      (s.insert i v).store =
        s.store.take ((s.store.length : Int) + i).toNat ++
          v :: s.store.drop ((s.store.length : Int) + i).toNat) := by
  refine ⟨?_, ?_, ?_⟩
  · rintro ⟨h0, hle⟩
    have hp : DocLayerStack.pyInsertPos s.store.length i = i.toNat := by
      rw [DocLayerStack.pyInsertPos, if_neg (by omega)]
      omega
    rw [DocLayerStack.insert, hp]
  · intro hgt
    have hp : DocLayerStack.pyInsertPos s.store.length i = s.store.length := by
      rw [DocLayerStack.pyInsertPos, if_neg (by omega)]
      omega
    rw [DocLayerStack.insert, hp]
    simp [List.take_length, List.drop_length]
  · intro hneg
    have hp : DocLayerStack.pyInsertPos s.store.length i =
        ((s.store.length : Int) + i).toNat := by
      rw [DocLayerStack.pyInsertPos, if_pos hneg]
      omega
    rw [DocLayerStack.insert, hp]

/-- Claim C6 amended-theorem witness: in-range insertion at index 0 places
the entry at the front. -/
theorem insert_clamps_witness :
    (DocLayerStack.insert ⟨[prezA], none⟩ 0 prezB).store = [prezB, prezA] := by
  have h := (insert_clamps ⟨[prezA], none⟩ 0 prezB).1 ⟨by decide, by decide⟩
  simpa using h

instance : IsTotal (Nat × Nat) DocLayerStack.lexRel := ⟨by
  rintro ⟨a1, a2⟩ ⟨b1, b2⟩
  simp only [DocLayerStack.lexRel]
  omega⟩

instance : IsTrans (Nat × Nat) DocLayerStack.lexRel := ⟨by
  rintro ⟨a1, a2⟩ ⟨b1, b2⟩ ⟨c1, c2⟩
  simp only [DocLayerStack.lexRel]
  omega⟩

/-- Claim C8: the `animation_order` getter returns exactly the identifiers
of the entries whose animation ordinal is non-null, ordered as the
second components of a lexicographically `(ordinal, identifier)`-sorted
permutation of their key pairs (identifier as tie-break); it is a pure
function of the set, so the set is not mutated. -/
theorem animationOrder_filter_sort (s : DocLayerStack) :
    ∃ sortedPairs : List (Nat × Nat),
      sortedPairs.Perm (DocLayerStack.animKeyPairs s) ∧
      List.Sorted DocLayerStack.lexRel sortedPairs ∧
      DocLayerStack.animationOrder s = sortedPairs.map Prod.snd ∧
      (DocLayerStack.animationOrder s).Perm
        ((s.store.filter (fun x => x.a_order.isSome)).map Prez.uuid) := by
  refine ⟨List.insertionSort DocLayerStack.lexRel (DocLayerStack.animKeyPairs s),
    List.perm_insertionSort _ _, List.sorted_insertionSort _ _, rfl, ?_⟩
  have h := (List.perm_insertionSort DocLayerStack.lexRel
    (DocLayerStack.animKeyPairs s)).map Prod.snd
  refine h.trans ?_
  rw [DocLayerStack.animKeyPairs, List.map_map]
  exact List.Perm.refl _

/-- The `DocLayerStack` mutating and cache-forcing operations named by the
cache-consistency claim. -/
inductive StackOp where
  | setit : Nat → Prez → StackOp
  | delit : Nat → StackOp
  | delrange : Nat → Nat → StackOp
  | ins : Int → Prez → StackOp
  | clearAO : StackOp
  | setAO : List Nat → StackOp
  | lookupU : Nat → StackOp
deriving DecidableEq

/-- Apply one operation; a raising operation (IndexError) leaves the stack
as it was when the exception is thrown. -/
def applyOp (s : DocLayerStack) : StackOp → DocLayerStack
  | .setit i v =>
    match s.setItem i v with
    | .ok s' => s'
    | .error _ => s
  | .delit i =>
    match s.delAt i with
    | .ok s' => s'
    | .error _ => s
  | .delrange a c => s.delRange a c
  | .ins i v => s.insert i v
  | .clearAO => s.clearAnimationOrder
  | .setAO seqIds => (s.setAnimationOrder seqIds).1
  | .lookupU u => (s.getUUID u).2

/-- Apply a sequence of operations left to right. -/
def applyOps (ops : List StackOp) (s : DocLayerStack) : DocLayerStack :=
  ops.foldl applyOp s

lemma applyOp_cacheOk (s : DocLayerStack) (op : StackOp) (h : s.cacheOk) :
    (applyOp s op).cacheOk := by
  cases op with
  | setit i v =>
    show DocLayerStack.cacheOk
      (match s.setItem i v with | .ok s' => s' | .error _ => s)
    rw [DocLayerStack.setItem]
    by_cases h1 : i < s.store.length
    · rw [if_pos h1]; exact Or.inl rfl
    · rw [if_neg h1]
      by_cases h2 : i = s.store.length
      · rw [if_pos h2]; exact Or.inl rfl
      · rw [if_neg h2]; exact h
  | delit i =>
    show DocLayerStack.cacheOk
      (match s.delAt i with | .ok s' => s' | .error _ => s)
    rw [DocLayerStack.delAt]
    by_cases h1 : i < s.store.length
    · rw [if_pos h1]; exact Or.inl rfl
    · rw [if_neg h1]; exact h
  | delrange a c => exact Or.inl rfl
  | ins i v => exact Or.inl rfl
  | clearAO => exact cacheOk_clear s h
  | setAO seqIds => exact setAnimationOrderAux_cacheOk seqIds 0 _ (cacheOk_clear s h)
  | lookupU u =>
    obtain ⟨hst, hu⟩ := getUUID_state s u h
    right
    show (s.getUUID u).2.u2r = some (buildU2R (s.getUUID u).2.store 0)
    rw [hu, hst]

/-- Claim C9: after any sequence of `DocLayerStack` operations starting from
a coherent cache, the cache stays coherent, and the lazily rebuilt
`uuid2row` mapping sends identifier `u` to row `i` exactly when the entry
stored at row `i` carries `u` (given the layer-set invariant that
identifiers appear at most once per set). -/
theorem uuid2row_cache_consistency (ops : List StackOp) (s0 : DocLayerStack)
    (hc : s0.cacheOk) :
    (applyOps ops s0).cacheOk ∧
    (((applyOps ops s0).store.map Prez.uuid).Nodup →
      ∀ u i : Nat,
        u2rGet ((applyOps ops s0).uuid2rowForce).1 u = some i ↔
          ((applyOps ops s0).store[i]?).map Prez.uuid = some u) := by
  have hok : ∀ (l : List StackOp) (s : DocLayerStack), s.cacheOk →
      (applyOps l s).cacheOk := by
    intro l
    induction l with
    | nil => intro s h; exact h
    | cons op rest ih => intro s h; exact ih _ (applyOp_cacheOk s op h)
  refine ⟨hok ops s0 hc, fun hnd u i => ?_⟩
  obtain ⟨h1, _, _⟩ := uuid2rowForce_spec _ (hok ops s0 hc)
  rw [h1, u2rGet_build _ 0 u hnd, ← idxOfUuid_some_iff _ u i hnd]
  cases idxOfUuid (applyOps ops s0).store u <;> simp

/-- Claim C9 witness: a concrete run of insert, lookup, and
clear-animation-order in which the rebuilt cache maps identifier 1 to
row 1, matching the store. -/
theorem uuid2row_cache_consistency_witness :
    u2rGet ((applyOps [.ins 0 prezA, .ins 0 prezB, .lookupU 1, .clearAO]
        ⟨[], none⟩).uuid2rowForce).1 1 = some 1 ↔
      ((applyOps [.ins 0 prezA, .ins 0 prezB, .lookupU 1, .clearAO]
        ⟨[], none⟩).store[1]?).map Prez.uuid = some 1 :=
  (uuid2row_cache_consistency [.ins 0 prezA, .ins 0 prezB, .lookupU 1, .clearAO]
    ⟨[], none⟩ (Or.inl rfl)).2 (by decide) 1 1

/-- A layer record held by the Catalogue: its metadata dict (`DocBasicLayer`
and kin are dict-like) plus, for `DocRGBLayer`, the uuids of the component
Image layers currently assigned to its r/g/b channels. -/
structure Layer where
  info : List (Nat × Nat)
  chans : List Nat
deriving DecidableEq

/-- `self._layer_with_uuid[uuid]` lookup. -/
def catGet (c : List (Nat × Layer)) (u : Nat) : Option Layer :=
  dictGet c u

/-- The signals and externally visible steps of a Document operation, in
emission order.  `catalogueDelete` marks the moment
`del self._layer_with_uuid[uuid]` runs and `workspaceRemove` the call
`self._workspace.remove(uuid)`, so that the claimed orderings are statable. -/
inductive DocAction where
  | logWarn : DocAction
  | didAddBasicLayer : Nat → DocAction
  | didChangeLayerVisibility : List (Nat × Bool) → DocAction
  | didRemoveLayers : List Nat → List Nat → Nat → Nat → DocAction
  | willPurgeLayer : Nat → DocAction
  | catalogueDelete : Nat → DocAction
  | workspaceRemove : Nat → DocAction
  | didSwitchLayerSet : Nat → DocAction
deriving DecidableEq

/-- The `Document`: the list of layer-set slots (`None` when uninitialized),
the index of the current set, and the Layer Catalogue `_layer_with_uuid`. -/
structure Document where
  current_set_index : Nat
  layer_sets : List (Option DocLayerStack)
  layer_with_uuid : List (Nat × Layer)
deriving DecidableEq

namespace Document

/-- Loop body of `toggle_layer_visibility`: read `L[dex]` (IndexError when
out of range), flip or force the flag, write back through `L[dex] = nu`,
and record the new visibility in the result dict `zult`. -/
def togVisAux : List Nat → DocLayerStack → List (Nat × Bool) → Option Bool →
    Except Unit (DocLayerStack × List (Nat × Bool))
  | [], ls, z, _ => .ok (ls, z)
  | dex :: rest, ls, z, vis? =>
    match ls.store[dex]? with
    | none => .error ()
    | some old =>
      let v := match vis? with
        | none => !old.visible
        | some b => b
      match ls.setItem dex { old with visible := v } with
      | .error _ => .error ()
      | .ok ls' => togVisAux rest ls' (dictSet z old.uuid v) vis?

/-- `toggle_layer_visibility(rows, visible)` on the current layer set,
emitting one consolidated `didChangeLayerVisibility` mapping. -/
def toggleLayerVisibility (d : Document) (rows : List Nat) (vis? : Option Bool) :
    Except Unit (Document × List DocAction) :=
  match d.layer_sets[d.current_set_index]? with
  | none => .error ()
  | some none => .error ()
  | some (some ls) =>
    match togVisAux rows ls [] vis? with
    | .error _ => .error ()
    | .ok (ls', z) =>
      .ok ({ d with layer_sets := d.layer_sets.set d.current_set_index (some ls') },
           [DocAction.didChangeLayerVisibility z])

/-- `is_using(uuid)`: true when any non-None layer set still holds a
presentation entry for this identifier (only presentation entries are
consulted; composite channel references are not). -/
def isUsing (d : Document) (u : Nat) : Bool :=
  d.layer_sets.any (fun ls? =>
    match ls? with
    | none => false
    | some ls => ls.store.any (fun p => p.uuid = u))

/-- The purge loop at the end of `remove_layer_prez`: for each removed
identifier still unused, emit `willPurgeLayer`, delete it from the
Catalogue (KeyError if absent), and ask the workspace to release it. -/
def purgeLoop : List Nat → Document → Except Unit (Document × List DocAction)
  | [], d => .ok (d, [])
  | u :: rest, d =>
    if d.isUsing u then purgeLoop rest d
    else
      match dictDel d.layer_with_uuid u with
      | .error _ => .error ()
      | .ok c' =>
        match purgeLoop rest { d with layer_with_uuid := c' } with
        | .error _ => .error ()
        | .ok (d', acts) =>
          .ok (d', DocAction.willPurgeLayer u :: DocAction.catalogueDelete u ::
            DocAction.workspaceRemove u :: acts)

/-- `remove_layer_prez(row, count)`: force the targeted rows invisible,
delete the slice from the current layer set, emit the removal notification,
then run the purge loop over the removed identifiers. -/
def removeLayerPrez (d : Document) (row count : Nat) :
    Except Unit (Document × List DocAction) :=
  match d.layer_sets[d.current_set_index]? with
  | none => .error ()
  | some none => .error ()
  | some (some ls) =>
    let uuids := ((ls.store.drop row).take count).map Prez.uuid
    match toggleLayerVisibility d (List.range' row count) (some false) with
    | .error _ => .error ()
    | .ok (d1, a1) =>
      match d1.layer_sets[d1.current_set_index]? with
      | some (some ls1) =>
        let n := ls1.store.length
        let clo := (List.range n).take row ++ (List.range n).drop (row + count)
        let sets2 := d1.layer_sets.set d1.current_set_index
          (some (ls1.delRange row count))
        let d2 := { d1 with layer_sets := sets2 }
        match purgeLoop uuids d2 with
        | .error _ => .error ()
        | .ok (d3, a3) =>
          .ok (d3, a1 ++ DocAction.didRemoveLayers clo uuids row count :: a3)
      | _ => .error ()

/-- The document state right after the structural removal step of
`remove_layer_prez` (rows deleted from the current set), the state whose
reference count the purge decision consults. -/
def removalMidState (d : Document) (row count : Nat) : Document :=
  match d.layer_sets[d.current_set_index]? with
  | some (some ls) =>
    let sets2 := d.layer_sets.set d.current_set_index (some (ls.delRange row count))
    { d with layer_sets := sets2 }
  | _ => d

/-- `update_dataset_info(new_info)`: the source logs a warning for an
unknown uuid but then unconditionally dereferences
`self._layer_with_uuid[uuid]`, raising `KeyError`; the error value carries
the log actions emitted before the raise. -/
def updateDatasetInfo (d : Document) (new_info : List (Nat × Nat)) :
    Except (List DocAction) (Document × List DocAction) :=
  match dictGet new_info INFO_UUID with
  | none => .error []
  | some uuid =>
    match catGet d.layer_with_uuid uuid with
    | some lyr =>
      let lyr2 : Layer := { lyr with info := dictMerge lyr.info new_info }
      .ok ({ d with layer_with_uuid := dictSet d.layer_with_uuid uuid lyr2 }, [])
    | none => .error [DocAction.logWarn]

/-- `DocLayerStack(existing)` cloning: copy the backing list; the cache
starts out invalidated (class default). -/
def cloneLayerSet (ls : DocLayerStack) : DocLayerStack :=
  ⟨ls.store, none⟩

/-- `select_layer_set(index)`: asserts `0 <= index <= len(sets)`, appends an
empty slot when `index == len(sets)`, clones the current set into the slot
when it is `None`, switches, and emits the switch notification. -/
def selectLayerSet (d : Document) (i : Nat) : Except Unit (Document × List DocAction) :=
  if i ≤ d.layer_sets.length then
    let sets1 := if i = d.layer_sets.length then d.layer_sets ++ [none] else d.layer_sets
    match sets1[i]? with
    | none => .error ()
    | some (some _) =>
      .ok ({ d with layer_sets := sets1, current_set_index := i },
           [DocAction.didSwitchLayerSet i])
    | some none =>
      match sets1[d.current_set_index]? with
      | some (some cur) =>
        let sets2 := sets1.set i (some (cloneLayerSet cur))
        .ok ({ d with layer_sets := sets2, current_set_index := i },
             [DocAction.didSwitchLayerSet i])
      | _ => .error ()
  else .error ()

end Document

/-- The external collaborators of `open_file`: the workspace importer and
the guidebook lookups, modelled as unconstrained functions. -/
structure Collab where
  import_image : Nat → Nat × List (Nat × Nat)
  collect_info : List (Nat × Nat) → List (Nat × Nat)
  climits : List (Nat × Nat) → Nat
  display_name : List (Nat × Nat) → Option Nat
  default_colormap : List (Nat × Nat) → Option Nat

/-- The dataset dict after `dataset.update(gbinfo)`. -/
def openDS1 (cb : Collab) (info : List (Nat × Nat)) : List (Nat × Nat) :=
  dictMerge info (cb.collect_info info)

/-- The dataset dict after `dataset[INFO.CLIM] = self._guidebook.climits(dataset)`. -/
def openDS2 (cb : Collab) (info : List (Nat × Nat)) : List (Nat × Nat) :=
  dictSet (openDS1 cb info) INFO_CLIM (cb.climits (openDS1 cb info))

/-- `self._guidebook.display_name(dataset) or dataset[INFO.NAME]`: fall back
to the dict entry when the guidebook yields nothing; `none` means the
fallback raises `KeyError`. -/
def nameResolve (cb : Collab) (ds : List (Nat × Nat)) : Option Nat :=
  match cb.display_name ds with
  | some nm => some nm
  | none => dictGet ds INFO_NAME

/-- The layer-set loop of `_insert_layer_with_info`: insert `p` into the
current set and the invisible copy `q` into every other non-None set,
walking the slots from index `dex`. -/
def insertAll (p q : Prez) (cur : Nat) (ib : Int) :
    Nat → List (Option DocLayerStack) → List (Option DocLayerStack)
  | _, [] => []
  | dex, none :: rest => none :: insertAll p q cur ib (dex + 1) rest
  | dex, some ls :: rest =>
    some (ls.insert ib (if dex = cur then p else q)) ::
      insertAll p q cur ib (dex + 1) rest

/-- `open_file(path, insert_before)`: import, return unchanged with a
warning when the identifier is already catalogued; otherwise build the
dataset through the guidebook, insert it into the Catalogue, build the
presentation entry (`visible=True`, `a_order=None`) and insert it into
every layer set via `_insert_layer_with_info`, then emit the add signal. -/
def openFile (cb : Collab) (d : Document) (path : Nat) (insert_before : Int) :
    Except Unit (Document × List DocAction × Nat) :=
  let uuid := (cb.import_image path).1
  let info := (cb.import_image path).2
  if (catGet d.layer_with_uuid uuid).isSome then
    .ok (d, [DocAction.logWarn], uuid)
  else
    match nameResolve cb (openDS2 cb info) with
    | none => .error ()
    | some nm =>
      let ds3 := dictSet (openDS2 cb info) INFO_NAME nm
      match dictGet ds3 INFO_UUID, dictGet ds3 INFO_KIND, dictGet ds3 INFO_CLIM with
      | some uv, some kv, some cl =>
        let p : Prez :=
          ⟨uv, kv, true, none, cb.default_colormap (openDS1 cb info), cl, MIX_NORMAL⟩
        let d1 : Document :=
          { d with layer_with_uuid := d.layer_with_uuid ++ [(uuid, ⟨ds3, []⟩)] }
        let sets2 := insertAll p { p with visible := false } d1.current_set_index
          insert_before 0 d1.layer_sets
        .ok ({ d1 with layer_sets := sets2 }, [DocAction.didAddBasicLayer uuid], uuid)
      | _, _, _ => .error ()

/-- The document of a successful operation result. -/
def okDoc : Except Unit (Document × List DocAction) → Option Document
  | .ok (d, _) => some d
  | .error _ => none

/-- The emitted actions of a successful operation result. -/
def okActs : Except Unit (Document × List DocAction) → Option (List DocAction)
  | .ok (_, a) => some a
  | .error _ => none

/-- First index of an action in a trace. -/
def firstIdxA : List DocAction → DocAction → Option Nat
  | [], _ => none
  | a :: r, b => if a = b then some 0 else (firstIdxA r b).map (· + 1)

/-- `beforeB a b l` holds when both actions occur in the trace `l` and the
first occurrence of `a` is strictly before the first occurrence of `b`. -/
def beforeB (a b : DocAction) (l : List DocAction) : Bool :=
  match firstIdxA l a, firstIdxA l b with
  | some i, some j => i < j
  | _, _ => false

section DocumentLemmas

lemma togVisAux_spec (rows : List Nat) :
    ∀ (ls : DocLayerStack) (z : List (Nat × Bool)) (vis? : Option Bool),
      (∀ r ∈ rows, r < ls.store.length) →
      ∃ p, Document.togVisAux rows ls z vis? = .ok p ∧
        p.1.store.length = ls.store.length ∧
        p.1.store.map Prez.uuid = ls.store.map Prez.uuid ∧
        (∀ i : Nat, i ∉ rows → p.1.store[i]? = ls.store[i]?) := by
  induction rows with
  | nil =>
    intro ls z vis? _
    exact ⟨(ls, z), rfl, rfl, rfl, fun _ _ => rfl⟩
  | cons dex rest ih =>
    intro ls z vis? h
    have hdex : dex < ls.store.length := h dex (List.mem_cons_self _ _)
    cases hold : ls.store[dex]? with
    | none =>
      rw [List.getElem?_eq_none_iff] at hold
      omega
    | some old =>
      set vv : Bool := (match vis? with | none => !old.visible | some b => b) with hvv
      have hstep : Document.togVisAux (dex :: rest) ls z vis? =
          Document.togVisAux rest ⟨ls.store.set dex { old with visible := vv }, none⟩
            (dictSet z old.uuid vv) vis? := by
        rw [Document.togVisAux]
        rw [hold]
        show (match DocLayerStack.setItem ls dex { old with visible := vv } with
          | .error _ => Except.error ()
          | .ok ls' => Document.togVisAux rest ls' (dictSet z old.uuid vv) vis?) = _
        rw [DocLayerStack.setItem, if_pos hdex]
      have hrest : ∀ r ∈ rest,
          r < (ls.store.set dex { old with visible := vv }).length := by
        intro r hr
        rw [List.length_set]
        exact h r (List.mem_cons_of_mem _ hr)
      obtain ⟨p, hp, hlen, huu, hunt⟩ :=
        ih ⟨ls.store.set dex { old with visible := vv }, none⟩
          (dictSet z old.uuid vv) vis? hrest
      refine ⟨p, hstep.trans hp, ?_, ?_, ?_⟩
      · rw [hlen]
        exact List.length_set ls.store dex { old with visible := vv } ▸ rfl
      · rw [huu]
        exact uuids_set_same ls.store dex old { old with visible := vv } hold rfl
      · intro i hi
        simp only [List.mem_cons] at hi
        push_neg at hi
        rw [hunt i hi.2]
        show (ls.store.set dex _)[i]? = _
        rw [List.getElem?_set_ne (fun hh => hi.1 hh.symm)]

lemma toggleLayerVisibility_spec (d : Document) (rows : List Nat) (vis? : Option Bool)
    (ls : DocLayerStack)
    (hc : d.layer_sets[d.current_set_index]? = some (some ls))
    (h : ∀ r ∈ rows, r < ls.store.length) :
    ∃ ls' z, Document.toggleLayerVisibility d rows vis? =
        .ok ({ d with layer_sets := d.layer_sets.set d.current_set_index (some ls') },
             [DocAction.didChangeLayerVisibility z]) ∧
      ls'.store.length = ls.store.length ∧
      ls'.store.map Prez.uuid = ls.store.map Prez.uuid ∧
      (∀ i : Nat, i ∉ rows → ls'.store[i]? = ls.store[i]?) := by
  obtain ⟨p, hp, hlen, huu, hunt⟩ := togVisAux_spec rows ls [] vis? h
  refine ⟨p.1, p.2, ?_, hlen, huu, hunt⟩
  rw [Document.toggleLayerVisibility]
  rw [hc]
  show (match Document.togVisAux rows ls [] vis? with
    | .error _ => Except.error ()
    | .ok (ls', z) =>
      Except.ok ({ d with layer_sets := d.layer_sets.set d.current_set_index (some ls') },
        [DocAction.didChangeLayerVisibility z])) = _
  rw [hp]

lemma find?_filter_ne {β : Type} (c : List (Nat × β)) (u v : Nat) (hvu : ¬ v = u) :
    (c.filter (fun kv => ¬ kv.1 = u)).find? (fun kv => kv.1 = v) =
      c.find? (fun kv => kv.1 = v) := by
  induction c with
  | nil => rfl
  | cons kv r ih =>
    by_cases hk : kv.1 = u
    · have h1 : List.filter (fun kv => decide ¬ kv.1 = u) (kv :: r) =
          List.filter (fun kv => decide ¬ kv.1 = u) r := by
        rw [List.filter_cons]
        simp [hk]
      have h2 : List.find? (fun kv => decide (kv.1 = v)) (kv :: r) =
          List.find? (fun kv => decide (kv.1 = v)) r :=
        List.find?_cons_of_neg _ (by
          simp only [decide_eq_true_eq]
          exact fun he => hvu (he.symm.trans hk))
      rw [h1, h2, ih]
    · have h1 : List.filter (fun kv => decide ¬ kv.1 = u) (kv :: r) =
          kv :: List.filter (fun kv => decide ¬ kv.1 = u) r := by
        rw [List.filter_cons]
        simp [hk]
      rw [h1]
      by_cases hkv : kv.1 = v
      · rw [List.find?_cons_of_pos _ (by simpa using hkv),
          List.find?_cons_of_pos _ (by simpa using hkv)]
      · rw [List.find?_cons_of_neg _ (by simpa using hkv),
          List.find?_cons_of_neg _ (by simpa using hkv), ih]

lemma find?_filter_self {β : Type} (c : List (Nat × β)) (u : Nat) :
    (c.filter (fun kv => ¬ kv.1 = u)).find? (fun kv => kv.1 = u) = none := by
  rw [List.find?_eq_none]
  intro x hx
  have hp := List.of_mem_filter hx
  simp only [decide_eq_true_eq] at hp ⊢
  exact hp

lemma catGet_filter_ne (c : List (Nat × Layer)) (u v : Nat) :
    catGet (c.filter (fun kv => ¬ kv.1 = u)) v =
      if v = u then none else catGet c v := by
  by_cases hv : v = u
  · rw [if_pos hv, catGet, dictGet, hv, find?_filter_self]
    rfl
  · rw [if_neg hv, catGet, dictGet, find?_filter_ne c u v hv]
    rfl

end DocumentLemmas

section PurgeLemmas

lemma isUsing_cat_irrelevant (d : Document) (c : List (Nat × Layer)) (v : Nat) :
    Document.isUsing { d with layer_with_uuid := c } v = d.isUsing v := rfl

lemma purgeLoop_spec (us : List Nat) :
    ∀ (d : Document), us.Nodup →
      (∀ u ∈ us, (catGet d.layer_with_uuid u).isSome = true) →
      ∃ p, Document.purgeLoop us d = .ok p ∧
        p.1.layer_sets = d.layer_sets ∧
        p.1.current_set_index = d.current_set_index ∧
        (∀ v : Nat, catGet p.1.layer_with_uuid v =
          if v ∈ us ∧ d.isUsing v = false then none
          else catGet d.layer_with_uuid v) ∧
        (∀ u ∈ us, d.isUsing u = false →
          ∃ l1 l2, p.2 = l1 ++ DocAction.willPurgeLayer u ::
              DocAction.catalogueDelete u :: DocAction.workspaceRemove u :: l2 ∧
            DocAction.willPurgeLayer u ∉ l1 ∧
            DocAction.catalogueDelete u ∉ l1 ∧
            DocAction.workspaceRemove u ∉ l1) := by
  induction us with
  | nil =>
    intro d _ _
    refine ⟨(d, []), rfl, rfl, rfl, fun v => ?_, fun u hu => absurd hu (List.not_mem_nil u)⟩
    rw [if_neg (by simp)]
  | cons u rest ih =>
    intro d hnd hcat
    simp only [List.nodup_cons] at hnd
    by_cases hu : d.isUsing u = true
    · obtain ⟨p, hp, hsets, hcur, hcatv, hblocks⟩ :=
        ih d hnd.2 (fun v hv => hcat v (List.mem_cons_of_mem _ hv))
      refine ⟨p, ?_, hsets, hcur, fun v => ?_, fun w hw hwf => ?_⟩
      · rw [Document.purgeLoop, if_pos hu]
        exact hp
      · rw [hcatv v]
        by_cases hv1 : v ∈ rest ∧ d.isUsing v = false
        · rw [if_pos hv1, if_pos ⟨List.mem_cons_of_mem _ hv1.1, hv1.2⟩]
        · rw [if_neg hv1, if_neg ?_]
          rintro ⟨hm, hf⟩
          rcases List.mem_cons.mp hm with h1 | h1
          · subst h1
            rw [hu] at hf
            cases hf
          · exact hv1 ⟨h1, hf⟩
      · rcases List.mem_cons.mp hw with h1 | h1
        · subst h1
          rw [hu] at hwf
          cases hwf
        · exact hblocks w h1 hwf
    · have hsome := hcat u (List.mem_cons_self _ _)
      have hfind : (d.layer_with_uuid.find? (fun kv => kv.1 = u)).isSome = true := by
        rw [catGet, dictGet] at hsome
        cases hfi : d.layer_with_uuid.find? (fun kv => kv.1 = u) with
        | none => rw [hfi] at hsome; cases hsome
        | some kv => rfl
      have hdel : dictDel d.layer_with_uuid u =
          .ok (d.layer_with_uuid.filter (fun kv => ¬ kv.1 = u)) := by
        rw [dictDel, if_pos hfind]
      have hcat1 : ∀ v ∈ rest,
          (catGet (d.layer_with_uuid.filter (fun kv => ¬ kv.1 = u)) v).isSome = true := by
        intro v hv
        rw [catGet_filter_ne, if_neg (fun he : v = u => hnd.1 (by rw [← he]; exact hv))]
        exact hcat v (List.mem_cons_of_mem _ hv)
      obtain ⟨⟨pd, pa⟩, hp, hsets, hcur, hcatv, hblocks⟩ :=
        ih { d with layer_with_uuid := d.layer_with_uuid.filter (fun kv => ¬ kv.1 = u) }
          hnd.2 hcat1
      refine ⟨(pd, DocAction.willPurgeLayer u :: DocAction.catalogueDelete u ::
          DocAction.workspaceRemove u :: pa), ?_, hsets, hcur, fun v => ?_, fun w hw hwf => ?_⟩
      · rw [Document.purgeLoop, if_neg hu]
        show (match dictDel d.layer_with_uuid u with
          | .error _ => Except.error ()
          | .ok c' =>
            match Document.purgeLoop rest { d with layer_with_uuid := c' } with
            | .error _ => Except.error ()
            | .ok (d', acts) =>
              Except.ok (d', DocAction.willPurgeLayer u :: DocAction.catalogueDelete u ::
                DocAction.workspaceRemove u :: acts)) = _
        rw [hdel]
        show (match Document.purgeLoop rest
            { d with layer_with_uuid :=
                d.layer_with_uuid.filter (fun kv => ¬ kv.1 = u) } with
          | .error _ => Except.error ()
          | .ok (d', acts) =>
            Except.ok (d', DocAction.willPurgeLayer u :: DocAction.catalogueDelete u ::
              DocAction.workspaceRemove u :: acts)) = _
        rw [hp]
      · rw [hcatv v]
        simp only [isUsing_cat_irrelevant]
        by_cases hv1 : v ∈ rest ∧ d.isUsing v = false
        · rw [if_pos hv1, if_pos ⟨List.mem_cons_of_mem _ hv1.1, hv1.2⟩]
        · rw [if_neg hv1]
          show catGet (d.layer_with_uuid.filter (fun kv => ¬ kv.1 = u)) v = _
          rw [catGet_filter_ne]
          by_cases hv2 : v = u
          · have husing : d.isUsing v = false := by
              rw [hv2]
              cases hb : d.isUsing u
              · rfl
              · exact absurd hb hu
            rw [if_pos hv2,
              if_pos ⟨by rw [hv2]; exact List.mem_cons_self u rest, husing⟩]
          · rw [if_neg hv2, if_neg ?_]
            rintro ⟨hm, hf⟩
            rcases List.mem_cons.mp hm with h1 | h1
            · exact hv2 h1
            · exact hv1 ⟨h1, hf⟩
      · rcases List.mem_cons.mp hw with h1 | h1
        · subst h1
          exact ⟨[], pa, rfl, List.not_mem_nil _, List.not_mem_nil _, List.not_mem_nil _⟩
        · have hwne : w ≠ u := fun he => hnd.1 (he ▸ h1)
          obtain ⟨l1, l2, heq, hb1, hb2, hb3⟩ :=
            hblocks w h1 (by rw [isUsing_cat_irrelevant]; exact hwf)
          have heq' : pa = l1 ++ DocAction.willPurgeLayer w ::
              DocAction.catalogueDelete w :: DocAction.workspaceRemove w :: l2 := heq
          refine ⟨DocAction.willPurgeLayer u :: DocAction.catalogueDelete u ::
              DocAction.workspaceRemove u :: l1, l2, by rw [heq']; rfl, ?_, ?_, ?_⟩
          · simp only [List.mem_cons]
            push_neg
            refine ⟨by simp [hwne], by simp, by simp, fun hm => hb1 hm⟩
          · simp only [List.mem_cons]
            push_neg
            refine ⟨by simp, by simp [hwne], by simp, fun hm => hb2 hm⟩
          · simp only [List.mem_cons]
            push_neg
            refine ⟨by simp, by simp, by simp [hwne], fun hm => hb3 hm⟩

end PurgeLemmas

section TraceLemmas

lemma firstIdxA_cons_self (l : List DocAction) (a : DocAction) :
    firstIdxA (a :: l) a = some 0 := by
  rw [firstIdxA, if_pos rfl]

lemma firstIdxA_cons_ne (l : List DocAction) (a b : DocAction) (h : a ≠ b) :
    firstIdxA (a :: l) b = (firstIdxA l b).map (· + 1) := by
  rw [firstIdxA, if_neg h]

lemma firstIdxA_append_of_not_mem (l1 l2 : List DocAction) (a : DocAction)
    (h : a ∉ l1) :
    firstIdxA (l1 ++ l2) a = (firstIdxA l2 a).map (· + l1.length) := by
  induction l1 with
  | nil =>
    simp only [List.nil_append, List.length_nil]
    cases firstIdxA l2 a <;> simp
  | cons x r ih =>
    simp only [List.mem_cons] at h
    push_neg at h
    rw [List.cons_append, firstIdxA_cons_ne _ x a (fun he => h.1 he.symm),
      ih h.2]
    cases firstIdxA l2 a with
    | none => rfl
    | some k => simp [Nat.add_assoc, Nat.add_comm 1]

lemma beforeB_decomp (pre l2 : List DocAction) (u : Nat)
    (h1 : DocAction.willPurgeLayer u ∉ pre)
    (h2 : DocAction.catalogueDelete u ∉ pre)
    (h3 : DocAction.workspaceRemove u ∉ pre) :
    beforeB (DocAction.willPurgeLayer u) (DocAction.catalogueDelete u)
      (pre ++ DocAction.willPurgeLayer u :: DocAction.catalogueDelete u ::
        DocAction.workspaceRemove u :: l2) = true ∧
    beforeB (DocAction.willPurgeLayer u) (DocAction.workspaceRemove u)
      (pre ++ DocAction.willPurgeLayer u :: DocAction.catalogueDelete u ::
        DocAction.workspaceRemove u :: l2) = true := by
  have hwp : firstIdxA (pre ++ DocAction.willPurgeLayer u ::
      DocAction.catalogueDelete u :: DocAction.workspaceRemove u :: l2)
      (DocAction.willPurgeLayer u) = some (0 + pre.length) := by
    rw [firstIdxA_append_of_not_mem _ _ _ h1, firstIdxA_cons_self]
    rfl
  have hcd : firstIdxA (pre ++ DocAction.willPurgeLayer u ::
      DocAction.catalogueDelete u :: DocAction.workspaceRemove u :: l2)
      (DocAction.catalogueDelete u) = some (0 + 1 + pre.length) := by
    rw [firstIdxA_append_of_not_mem _ _ _ h2,
      firstIdxA_cons_ne _ _ _ (by simp), firstIdxA_cons_self]
    rfl
  have hwr : firstIdxA (pre ++ DocAction.willPurgeLayer u ::
      DocAction.catalogueDelete u :: DocAction.workspaceRemove u :: l2)
      (DocAction.workspaceRemove u) = some (0 + 1 + 1 + pre.length) := by
    rw [firstIdxA_append_of_not_mem _ _ _ h3,
      firstIdxA_cons_ne _ _ _ (by simp), firstIdxA_cons_ne _ _ _ (by simp),
      firstIdxA_cons_self]
    rfl
  constructor
  · rw [beforeB, hwp, hcd]
    simp only [decide_eq_true_eq]
    omega
  · rw [beforeB, hwp, hwr]
    simp only [decide_eq_true_eq]
    omega

end TraceLemmas

section RemoveLemmas

lemma removeLayerPrez_master (d : Document) (row count : Nat) (ls : DocLayerStack)
    (hc : d.layer_sets[d.current_set_index]? = some (some ls))
    (hlen : row + count ≤ ls.store.length)
    (hnd : (((ls.store.drop row).take count).map Prez.uuid).Nodup)
    (hcat : ∀ u ∈ ((ls.store.drop row).take count).map Prez.uuid,
      (catGet d.layer_with_uuid u).isSome = true) :
    ∃ p, Document.removeLayerPrez d row count = .ok p ∧
      (∀ v : Nat, catGet p.1.layer_with_uuid v =
        if v ∈ ((ls.store.drop row).take count).map Prez.uuid ∧
            (Document.removalMidState d row count).isUsing v = false then none
        else catGet d.layer_with_uuid v) ∧
      (∀ u ∈ ((ls.store.drop row).take count).map Prez.uuid,
        (Document.removalMidState d row count).isUsing u = false →
          beforeB (DocAction.willPurgeLayer u) (DocAction.catalogueDelete u) p.2 = true ∧
          beforeB (DocAction.willPurgeLayer u) (DocAction.workspaceRemove u) p.2 = true) := by
  have hcurlt : d.current_set_index < d.layer_sets.length :=
    (List.getElem?_eq_some_iff.mp hc).1
  have hrows : ∀ r ∈ List.range' row count, r < ls.store.length := by
    intro r hr
    rw [List.mem_range'_1] at hr
    omega
  obtain ⟨ls', z, htog, hlen', huu', hunt'⟩ :=
    toggleLayerVisibility_spec d (List.range' row count) (some false) ls hc hrows
  have hcur1 : (d.layer_sets.set d.current_set_index (some ls'))[d.current_set_index]? =
      some (some ls') := List.getElem?_set_eq_of_lt _ hcurlt
  have hstores : ls'.store.take row ++ ls'.store.drop (row + count) =
      ls.store.take row ++ ls.store.drop (row + count) := by
    have ht : ls'.store.take row = ls.store.take row := by
      apply List.ext_getElem?
      intro i
      by_cases hi : i < row
      · rw [List.getElem?_take_of_lt hi, List.getElem?_take_of_lt hi]
        apply hunt'
        rw [List.mem_range'_1]
        omega
      · rw [List.getElem?_take_eq_none (by omega), List.getElem?_take_eq_none (by omega)]
    have hd2 : ls'.store.drop (row + count) = ls.store.drop (row + count) := by
      apply List.ext_getElem?
      intro i
      rw [List.getElem?_drop, List.getElem?_drop]
      apply hunt'
      rw [List.mem_range'_1]
      omega
    rw [ht, hd2]
  have hmidset : Document.removalMidState d row count =
      { d with layer_sets := d.layer_sets.set d.current_set_index (some (ls.delRange row count)) } := by
    rw [Document.removalMidState, hc]
  have hdelr : ls'.delRange row count = ls.delRange row count := by
    rw [DocLayerStack.delRange, DocLayerStack.delRange, hstores]
  obtain ⟨⟨pd, pa⟩, hp, hsets, hcur, hcatv, hblocks⟩ :=
    purgeLoop_spec (((ls.store.drop row).take count).map Prez.uuid)
      { d with layer_sets := d.layer_sets.set d.current_set_index (some (ls.delRange row count)) }
      hnd hcat
  have hmidusing : ∀ v, (Document.removalMidState d row count).isUsing v =
      Document.isUsing
        { d with layer_sets := d.layer_sets.set d.current_set_index (some (ls.delRange row count)) }
        v := by
    intro v
    rw [hmidset]
  refine ⟨(pd, [DocAction.didChangeLayerVisibility z] ++
      DocAction.didRemoveLayers
        ((List.range ls'.store.length).take row ++
          (List.range ls'.store.length).drop (row + count))
        (((ls.store.drop row).take count).map Prez.uuid) row count :: pa),
    ?_, fun v => ?_, fun u hu huf => ?_⟩
  · rw [Document.removeLayerPrez, hc]
    show (match Document.toggleLayerVisibility d (List.range' row count) (some false) with
      | .error _ => Except.error ()
      | .ok (d1, a1) =>
        match d1.layer_sets[d1.current_set_index]? with
        | some (some ls1) =>
          match Document.purgeLoop (((ls.store.drop row).take count).map Prez.uuid)
              { d1 with layer_sets := d1.layer_sets.set d1.current_set_index (some (ls1.delRange row count)) } with
          | .error _ => Except.error ()
          | .ok (d3, a3) =>
            Except.ok (d3, a1 ++ DocAction.didRemoveLayers
              ((List.range ls1.store.length).take row ++
                (List.range ls1.store.length).drop (row + count))
              (((ls.store.drop row).take count).map Prez.uuid) row count :: a3)
        | _ => Except.error ()) = _
    rw [htog]
    show (match (d.layer_sets.set d.current_set_index (some ls'))[d.current_set_index]? with
      | some (some ls1) =>
        match Document.purgeLoop (((ls.store.drop row).take count).map Prez.uuid)
            { d with layer_sets := ((d.layer_sets.set d.current_set_index (some ls')).set d.current_set_index (some (ls1.delRange row count))) } with
        | .error _ => Except.error ()
        | .ok (d3, a3) =>
          Except.ok (d3, [DocAction.didChangeLayerVisibility z] ++
            DocAction.didRemoveLayers
              ((List.range ls1.store.length).take row ++
                (List.range ls1.store.length).drop (row + count))
              (((ls.store.drop row).take count).map Prez.uuid) row count :: a3)
      | _ => Except.error ()) = _
    rw [hcur1]
    show (match Document.purgeLoop (((ls.store.drop row).take count).map Prez.uuid)
        { d with layer_sets := ((d.layer_sets.set d.current_set_index (some ls')).set d.current_set_index (some (ls'.delRange row count))) } with
      | .error _ => Except.error ()
      | .ok (d3, a3) =>
        Except.ok (d3, [DocAction.didChangeLayerVisibility z] ++
          DocAction.didRemoveLayers
            ((List.range ls'.store.length).take row ++
              (List.range ls'.store.length).drop (row + count))
            (((ls.store.drop row).take count).map Prez.uuid) row count :: a3)) = _
    rw [List.set_set, hdelr, hp]
  · rw [hcatv v, ← hmidusing v]
  · obtain ⟨l1, l2, heq, hb1, hb2, hb3⟩ := hblocks u hu (by rw [← hmidusing u]; exact huf)
    have heq' : pa = l1 ++ DocAction.willPurgeLayer u ::
        DocAction.catalogueDelete u :: DocAction.workspaceRemove u :: l2 := heq
    have hfull : [DocAction.didChangeLayerVisibility z] ++
        DocAction.didRemoveLayers
          ((List.range ls'.store.length).take row ++
            (List.range ls'.store.length).drop (row + count))
          (((ls.store.drop row).take count).map Prez.uuid) row count :: pa =
        (DocAction.didChangeLayerVisibility z ::
          DocAction.didRemoveLayers
            ((List.range ls'.store.length).take row ++
              (List.range ls'.store.length).drop (row + count))
            (((ls.store.drop row).take count).map Prez.uuid) row count :: l1) ++
          DocAction.willPurgeLayer u :: DocAction.catalogueDelete u ::
            DocAction.workspaceRemove u :: l2 := by
      rw [heq']
      rfl
    rw [hfull]
    exact beforeB_decomp _ l2 u
      (by simp only [List.mem_cons]; push_neg
          exact ⟨by simp, by simp, hb1⟩)
      (by simp only [List.mem_cons]; push_neg
          exact ⟨by simp, by simp, hb2⟩)
      (by simp only [List.mem_cons]; push_neg
          exact ⟨by simp, by simp, hb3⟩)

end RemoveLemmas

/-- Claim C3: for every remove call on the current layer set and every
removed identifier `u`: `u` stays in the Catalogue exactly when, after the
removal step, some layer set still holds a presentation entry for it
(so it is deleted iff the cross-set reference count is zero); and whenever
`u` is purged, the `willPurgeLayer` notification is emitted strictly before
`u` is deleted from the Catalogue and before the workspace is asked to
release it. -/
theorem removeLayerPrez_purges_and_notifies (d : Document) (row count : Nat)
    (ls : DocLayerStack)
    (hc : d.layer_sets[d.current_set_index]? = some (some ls))
    (hlen : row + count ≤ ls.store.length)
    (hnd : (((ls.store.drop row).take count).map Prez.uuid).Nodup)
    (hcat : ∀ u ∈ ((ls.store.drop row).take count).map Prez.uuid,
      (catGet d.layer_with_uuid u).isSome = true) :
    ∀ u ∈ ((ls.store.drop row).take count).map Prez.uuid,
      (okDoc (Document.removeLayerPrez d row count)).map
          (fun d' => (catGet d'.layer_with_uuid u).isSome) =
        some ((Document.removalMidState d row count).isUsing u) ∧
      ((Document.removalMidState d row count).isUsing u = false →
        (okActs (Document.removeLayerPrez d row count)).map
            (fun acts => beforeB (DocAction.willPurgeLayer u)
              (DocAction.catalogueDelete u) acts) = some true ∧
        (okActs (Document.removeLayerPrez d row count)).map
            (fun acts => beforeB (DocAction.willPurgeLayer u)
              (DocAction.workspaceRemove u) acts) = some true) := by
  obtain ⟨p, hok, hcatv, hbl⟩ := removeLayerPrez_master d row count ls hc hlen hnd hcat
  intro u hu
  constructor
  · rw [hok]
    show some (catGet p.1.layer_with_uuid u).isSome = _
    rw [hcatv u]
    by_cases husing : (Document.removalMidState d row count).isUsing u = false
    · rw [if_pos ⟨hu, husing⟩, husing]
      rfl
    · rw [if_neg (fun hcond => husing hcond.2), hcat u hu]
      have htr : (Document.removalMidState d row count).isUsing u = true := by
        cases hb : (Document.removalMidState d row count).isUsing u
        · exact absurd hb husing
        · rfl
      rw [htr]
  · intro huf
    obtain ⟨hb1, hb2⟩ := hbl u hu huf
    rw [hok]
    exact ⟨congrArg some hb1, congrArg some hb2⟩

/-- Demo layer with no metadata and no channel references. -/
def layerPlain : Layer := ⟨[], []⟩
/-- Demo document: one layer set holding only identifier 1, catalogued. -/
def docRemove : Document := ⟨0, [some ⟨[prezA], none⟩], [(1, layerPlain)]⟩

/-- Claim C3 witness: removing row 0 of the sole layer set purges
identifier 1, with the purge notification strictly before the Catalogue
deletion and the workspace release. -/
theorem removeLayerPrez_purges_and_notifies_witness :
    (okDoc (Document.removeLayerPrez docRemove 0 1)).map
        (fun d' => (catGet d'.layer_with_uuid 1).isSome) = some false ∧
    (okActs (Document.removeLayerPrez docRemove 0 1)).map
        (fun acts => beforeB (DocAction.willPurgeLayer 1)
          (DocAction.catalogueDelete 1) acts) = some true ∧
    (okActs (Document.removeLayerPrez docRemove 0 1)).map
        (fun acts => beforeB (DocAction.willPurgeLayer 1)
          (DocAction.workspaceRemove 1) acts) = some true := by
  have h := removeLayerPrez_purges_and_notifies docRemove 0 1 ⟨[prezA], none⟩
    (by decide) (by decide) (by decide) (by decide) 1 (by decide)
  obtain ⟨ha, hb⟩ := h
  obtain ⟨hb1, hb2⟩ := hb (by decide)
  exact ⟨ha.trans (by decide), hb1, hb2⟩

/-- Claim C10: the purge decision counts only presentation entries, never
RGB-composite channel references: when the last presentation entry of `u`
is removed, `u` is purged from the Catalogue even though a catalogued
composite layer still lists `u` among its channels, and that composite
(with its dangling reference) survives unchanged. -/
theorem purge_ignores_rgb_channel_refs (d : Document) (row : Nat)
    (ls : DocLayerStack) (u c : Nat) (lyr : Layer)
    (hc : d.layer_sets[d.current_set_index]? = some (some ls))
    (hrow : row < ls.store.length)
    (hu : ((ls.store.drop row).take 1).map Prez.uuid = [u])
    (hcatu : (catGet d.layer_with_uuid u).isSome = true)
    (hcomp : catGet d.layer_with_uuid c = some lyr)
    (hchan : u ∈ lyr.chans)
    (hcu : ¬ c = u)
    (hlast : (Document.removalMidState d row 1).isUsing u = false) :
    (okDoc (Document.removeLayerPrez d row 1)).map
        (fun d' => (catGet d'.layer_with_uuid u).isSome) = some false ∧
    (okDoc (Document.removeLayerPrez d row 1)).bind
        (fun d' => catGet d'.layer_with_uuid c) = some lyr ∧
    u ∈ lyr.chans := by
  obtain ⟨p, hok, hcatv, _⟩ := removeLayerPrez_master d row 1 ls hc (by omega)
    (by rw [hu]; exact List.nodup_singleton u)
    (by rw [hu]; intro v hv; rw [List.mem_singleton.mp hv]; exact hcatu)
  refine ⟨?_, ?_, hchan⟩
  · rw [hok]
    show some (catGet p.1.layer_with_uuid u).isSome = _
    rw [hcatv u, if_pos ⟨by rw [hu]; exact List.mem_singleton_self u, hlast⟩]
    rfl
  · rw [hok]
    show catGet p.1.layer_with_uuid c = _
    rw [hcatv c, if_neg (by rw [hu]; rintro ⟨hm, _⟩; exact hcu (List.mem_singleton.mp hm))]
    exact hcomp

/-- Demo RGB presentation entry with identifier 5. -/
def prezRGB : Prez := ⟨5, KIND_RGB, true, none, none, 0, MIX_NORMAL⟩
/-- Demo RGB layer whose red channel references image identifier 1. -/
def layerRGB : Layer := ⟨[], [1]⟩
/-- Demo document for the channel-reference purge: image 1 and composite 5
are catalogued; the composite references image 1 as a channel. -/
def docRGB : Document :=
  ⟨0, [some ⟨[prezA, prezRGB], none⟩], [(1, layerPlain), (5, layerRGB)]⟩

/-- Claim C10 witness: removing image 1's only presentation entry purges it
although composite 5 still references it as a channel. -/
theorem purge_ignores_rgb_channel_refs_witness :
    (okDoc (Document.removeLayerPrez docRGB 0 1)).map
        (fun d' => (catGet d'.layer_with_uuid 1).isSome) = some false ∧
    (okDoc (Document.removeLayerPrez docRGB 0 1)).bind
        (fun d' => catGet d'.layer_with_uuid 5) = some layerRGB ∧
    (1 : Nat) ∈ layerRGB.chans :=
  purge_ignores_rgb_channel_refs docRGB 0 ⟨[prezA, prezRGB], none⟩ 1 5 layerRGB
    (by decide) (by decide) (by decide) (by decide) (by decide) (by decide)
    (by decide) (by decide)

/-- Claim C2 (code bug): a metadata update for an identifier that is not in
the Catalogue is diagnosed at warning level but then raises `KeyError`
instead of being a no-op: the source logs the warning and falls through to
`self._layer_with_uuid[uuid].update(new_info)`.  Evaluated at the failing
input (empty document, update carrying unknown identifier 5), the call
errors after the warning. -/
theorem updateDatasetInfo_raises_for_unknown_uuid :
    Document.updateDatasetInfo ⟨0, [some ⟨[], none⟩], []⟩ [(INFO_UUID, 5)] =
      .error [DocAction.logWarn] := by
  rfl

lemma catGet_append_missing (c : List (Nat × Layer)) (u : Nat) (x : Layer)
    (h : catGet c u = none) : catGet (c ++ [(u, x)]) u = some x := by
  rw [catGet, dictGet] at h ⊢
  rw [List.find?_append]
  cases hf : c.find? (fun kv => kv.1 = u) with
  | none =>
    rw [List.find?_cons_of_pos _ (by simp)]
    rfl
  | some kv =>
    rw [hf] at h
    cases h

lemma openFile_ok_mem (cb : Collab) (d : Document) (path : Nat) (ib : Int)
    (d1 : Document) (a1 : List DocAction) (u1 : Nat)
    (h : openFile cb d path ib = .ok (d1, a1, u1)) :
    u1 = (cb.import_image path).1 ∧
    (catGet d1.layer_with_uuid (cb.import_image path).1).isSome = true := by
  rw [openFile] at h
  by_cases hin : (catGet d.layer_with_uuid (cb.import_image path).1).isSome = true
  · rw [if_pos hin] at h
    simp only [Except.ok.injEq, Prod.mk.injEq] at h
    obtain ⟨hd, _, hu⟩ := h
    exact ⟨hu.symm, hd ▸ hin⟩
  · rw [if_neg hin] at h
    cases hnm : nameResolve cb (openDS2 cb (cb.import_image path).2) with
    | none => rw [hnm] at h; simp at h
    | some nm =>
      rw [hnm] at h
      dsimp only at h
      cases huv : dictGet (dictSet (openDS2 cb (cb.import_image path).2) INFO_NAME nm)
          INFO_UUID with
      | none => rw [huv] at h; simp at h
      | some uv =>
        rw [huv] at h
        cases hkv : dictGet (dictSet (openDS2 cb (cb.import_image path).2) INFO_NAME nm)
            INFO_KIND with
        | none => rw [hkv] at h; simp at h
        | some kv =>
          rw [hkv] at h
          cases hcl : dictGet (dictSet (openDS2 cb (cb.import_image path).2) INFO_NAME nm)
              INFO_CLIM with
          | none => rw [hcl] at h; simp at h
          | some cl =>
            rw [hcl] at h
            simp only [Except.ok.injEq, Prod.mk.injEq] at h
            obtain ⟨hd, _, hu⟩ := h
            refine ⟨hu.symm, ?_⟩
            rw [← hd]
            show (catGet (d.layer_with_uuid ++ [((cb.import_image path).1, _)])
              (cb.import_image path).1).isSome = true
            rw [catGet_append_missing _ _ _ (by
              cases hg : catGet d.layer_with_uuid (cb.import_image path).1
              · rfl
              · exact absurd (by rw [hg]; rfl) hin)]
            rfl

/-- Claim C5: `open` is idempotent per identifier: re-opening a path
whose import yields an identifier already catalogued (after any
successful first `open` of that path) returns with the Document — the
Catalogue and every layer set, the current one included — exactly as the
first call left it, emits only a warning-level diagnostic, and is not an
error. -/
theorem openFile_idempotent (cb : Collab) (d : Document) (path : Nat) (ib ib2 : Int)
    (d1 : Document) (a1 : List DocAction) (u1 : Nat)
    (h : openFile cb d path ib = .ok (d1, a1, u1)) :
    openFile cb d1 path ib2 = .ok (d1, [DocAction.logWarn], u1) := by
  obtain ⟨hu, hmem⟩ := openFile_ok_mem cb d path ib d1 a1 u1 h
  rw [openFile, if_pos hmem, hu]

/-- Demo collaborator: importing any path yields identifier 5 with a
metadata dict carrying `INFO.UUID` and `INFO.KIND`. -/
def cbDemo : Collab :=
  ⟨fun _ => (5, [(INFO_UUID, 5), (INFO_KIND, KIND_IMAGE)]),
   fun _ => [], fun _ => 7, fun _ => some 3, fun _ => none⟩

/-- Demo empty document with a single empty layer set. -/
def docEmpty : Document := ⟨0, [some ⟨[], none⟩], []⟩

/-- The document produced by a first `open` of path 0 on the empty demo
document. -/
def docAfterOpen : Document :=
  match openFile cbDemo docEmpty 0 0 with
  | .ok (d, _, _) => d
  | .error _ => docEmpty

/-- Claim C5 witness: the second `open` of the same path leaves the
document of the first call untouched and only warns. -/
theorem openFile_idempotent_witness :
    openFile cbDemo docAfterOpen 0 0 = .ok (docAfterOpen, [DocAction.logWarn], 5) :=
  openFile_idempotent cbDemo docEmpty 0 0 0 docAfterOpen
    [DocAction.didAddBasicLayer 5] 5 (by rfl)

/-- The document of a successful `open_file` result. -/
def okOpenDoc : Except Unit (Document × List DocAction × Nat) → Option Document
  | .ok (d, _, _) => some d
  | .error _ => none

lemma insert_zero (ls : DocLayerStack) (v : Prez) :
    ls.insert 0 v = ⟨v :: ls.store, none⟩ := by
  rw [DocLayerStack.insert]
  have h : DocLayerStack.pyInsertPos ls.store.length 0 = 0 := by
    rw [DocLayerStack.pyInsertPos, if_neg (by omega)]
    simp
  rw [h]
  simp

lemma insertAll_getElem? (p q : Prez) (cur : Nat) (ib : Int) :
    ∀ (sets : List (Option DocLayerStack)) (dex j : Nat),
      (insertAll p q cur ib dex sets)[j]? =
        (sets[j]?).map (Option.map
          (fun ls => ls.insert ib (if dex + j = cur then p else q))) := by
  intro sets
  induction sets with
  | nil => intro dex j; simp [insertAll]
  | cons s rest ih =>
    intro dex j
    cases s with
    | none =>
      cases j with
      | zero => simp [insertAll]
      | succ jj =>
        simp only [insertAll, List.getElem?_cons_succ]
        rw [ih (dex + 1) jj]
        have he : dex + 1 + jj = dex + (jj + 1) := by omega
        rw [he]
    | some ls0 =>
      cases j with
      | zero =>
        simp only [insertAll, List.getElem?_cons_zero, Option.map_some']
        rw [Nat.add_zero]
      | succ jj =>
        simp only [insertAll, List.getElem?_cons_succ]
        rw [ih (dex + 1) jj]
        have he : dex + 1 + jj = dex + (jj + 1) := by omega
        rw [he]

lemma insertAll_length (p q : Prez) (cur : Nat) (ib : Int) :
    ∀ (sets : List (Option DocLayerStack)) (dex : Nat),
      (insertAll p q cur ib dex sets).length = sets.length := by
  intro sets
  induction sets with
  | nil => intro dex; rfl
  | cons s rest ih =>
    intro dex
    cases s <;> simp [insertAll, ih]

/-- Claim C4: opening a path whose identifier is new to the Catalogue
inserts a presentation entry with `visible = true` and `a_order = none` at
index 0 of the current layer set, and a `visible = false` copy of it at
index 0 of every other existing (non-None) layer set; None slots stay
None, the number of slots is unchanged, all previously present entries
keep their relative order shifted down by one (the new store is the entry
consed onto the old store), and the identifier enters the Catalogue. -/
theorem openFile_inserts_new_layer (cb : Collab) (d : Document) (path : Nat)
    (ls : DocLayerStack) (nm uv kv cl : Nat)
    (hnew : catGet d.layer_with_uuid (cb.import_image path).1 = none)
    (hcur : d.layer_sets[d.current_set_index]? = some (some ls))
    (hnm : nameResolve cb (openDS2 cb (cb.import_image path).2) = some nm)
    (huv : dictGet (dictSet (openDS2 cb (cb.import_image path).2) INFO_NAME nm)
      INFO_UUID = some uv)
    (hkv : dictGet (dictSet (openDS2 cb (cb.import_image path).2) INFO_NAME nm)
      INFO_KIND = some kv)
    (hcl : dictGet (dictSet (openDS2 cb (cb.import_image path).2) INFO_NAME nm)
      INFO_CLIM = some cl) :
    (okOpenDoc (openFile cb d path 0)).bind
        (fun d' => d'.layer_sets[d.current_set_index]?) =
      some (some ⟨(⟨uv, kv, true, none,
        cb.default_colormap (openDS1 cb (cb.import_image path).2), cl,
        MIX_NORMAL⟩ : Prez) :: ls.store, none⟩) ∧
    (∀ j : Nat, ∀ lsj : DocLayerStack, ¬ j = d.current_set_index →
      d.layer_sets[j]? = some (some lsj) →
      (okOpenDoc (openFile cb d path 0)).bind (fun d' => d'.layer_sets[j]?) =
        some (some ⟨(⟨uv, kv, false, none,
          cb.default_colormap (openDS1 cb (cb.import_image path).2), cl,
          MIX_NORMAL⟩ : Prez) :: lsj.store, none⟩)) ∧
    (∀ j : Nat, d.layer_sets[j]? = some none →
      (okOpenDoc (openFile cb d path 0)).bind (fun d' => d'.layer_sets[j]?) =
        some none) ∧
    (okOpenDoc (openFile cb d path 0)).map (fun d' => d'.layer_sets.length) =
      some d.layer_sets.length ∧
    (okOpenDoc (openFile cb d path 0)).map
        (fun d' => (catGet d'.layer_with_uuid (cb.import_image path).1).isSome) =
      some true := by
  have hnotin : ¬ (catGet d.layer_with_uuid (cb.import_image path).1).isSome = true := by
    rw [hnew]
    simp
  have hopen : openFile cb d path 0 =
      .ok (⟨d.current_set_index,
        insertAll
          ⟨uv, kv, true, none,
            cb.default_colormap (openDS1 cb (cb.import_image path).2), cl, MIX_NORMAL⟩
          ⟨uv, kv, false, none,
            cb.default_colormap (openDS1 cb (cb.import_image path).2), cl, MIX_NORMAL⟩
          d.current_set_index 0 0 d.layer_sets,
        d.layer_with_uuid ++ [((cb.import_image path).1,
          ⟨dictSet (openDS2 cb (cb.import_image path).2) INFO_NAME nm, []⟩)]⟩,
       [DocAction.didAddBasicLayer (cb.import_image path).1],
       (cb.import_image path).1) := by
    rw [openFile, if_neg hnotin, hnm]
    dsimp only
    rw [huv, hkv, hcl]
  rw [hopen]
  refine ⟨?_, fun j lsj hne hj => ?_, fun j hj => ?_, ?_, ?_⟩
  · show (insertAll _ _ d.current_set_index 0 0 d.layer_sets)[d.current_set_index]? = _
    rw [insertAll_getElem?, hcur]
    simp only [Option.map_some', Nat.zero_add, if_pos rfl]
    rw [insert_zero]
    simp
  · show (insertAll _ _ d.current_set_index 0 0 d.layer_sets)[j]? = _
    rw [insertAll_getElem?, hj]
    simp only [Option.map_some', Nat.zero_add]
    rw [if_neg hne, insert_zero]
  · show (insertAll _ _ d.current_set_index 0 0 d.layer_sets)[j]? = _
    rw [insertAll_getElem?, hj]
    rfl
  · show some (insertAll _ _ d.current_set_index 0 0 d.layer_sets).length = _
    rw [insertAll_length]
  · show some (catGet (d.layer_with_uuid ++ _) (cb.import_image path).1).isSome = _
    rw [catGet_append_missing _ _ _ hnew]
    rfl

/-- Claim C4 witness: opening path 0 on the empty demo document places one
entry, `visible = true` and `a_order = none`, in the current layer set and
catalogues identifier 5. -/
theorem openFile_inserts_new_layer_witness :
    (okOpenDoc (openFile cbDemo docEmpty 0 0)).bind
        (fun d' => d'.layer_sets[0]?) =
      some (some ⟨[⟨5, KIND_IMAGE, true, none, none, 7, MIX_NORMAL⟩], none⟩) ∧
    (okOpenDoc (openFile cbDemo docEmpty 0 0)).map
        (fun d' => (catGet d'.layer_with_uuid 5).isSome) = some true := by
  have h := openFile_inserts_new_layer cbDemo docEmpty 0 ⟨[], none⟩ 3 5 KIND_IMAGE 7
    (by rfl) (by rfl) (by rfl) (by rfl) (by rfl) (by rfl)
  exact ⟨h.1, h.2.2.2.2⟩

/-- Claim C7: selecting a layer set whose slot is empty (None, or one past
the end so that a fresh None slot is appended) populates the slot with a
clone carrying value copies of every presentation entry of the current set,
makes it current, and a subsequent `toggle_layer_visibility` in the newly
selected set leaves every presentation entry of the source set it was
cloned from unchanged. -/
theorem selectLayerSet_clone_isolated (d : Document) (j : Nat) (cur : DocLayerStack)
    (rows : List Nat) (vis? : Option Bool)
    (hcur : d.layer_sets[d.current_set_index]? = some (some cur))
    (hne : ¬ d.current_set_index = j)
    (hj : d.layer_sets[j]? = some none ∨ j = d.layer_sets.length)
    (hrows : ∀ r ∈ rows, r < cur.store.length) :
    (okDoc (Document.selectLayerSet d j)).bind (fun d1 => d1.layer_sets[j]?) =
      some (some ⟨cur.store, none⟩) ∧
    (okDoc (Document.selectLayerSet d j)).map (fun d1 => d1.current_set_index) =
      some j ∧
    (okDoc (Document.selectLayerSet d j)).bind (fun d1 =>
      (okDoc (Document.toggleLayerVisibility d1 rows vis?)).bind
        (fun d2 => d2.layer_sets[d.current_set_index]?)) = some (some cur) := by
  have hcurlt : d.current_set_index < d.layer_sets.length :=
    (List.getElem?_eq_some_iff.mp hcur).1
  have hle : j ≤ d.layer_sets.length := by
    rcases hj with hj | hj
    · exact Nat.le_of_lt (List.getElem?_eq_some_iff.mp hj).1
    · omega
  set sets1 : List (Option DocLayerStack) :=
    (if j = d.layer_sets.length then d.layer_sets ++ [none] else d.layer_sets)
    with hs1
  have hsets1j : sets1[j]? = some none := by
    rw [hs1]
    rcases hj with hj | hj
    · have hjlt : j < d.layer_sets.length := (List.getElem?_eq_some_iff.mp hj).1
      rw [if_neg (by omega)]
      exact hj
    · rw [if_pos hj, hj]
      exact List.getElem?_concat_length d.layer_sets none
  have hsets1cur : sets1[d.current_set_index]? = some (some cur) := by
    rw [hs1]
    by_cases hj2 : j = d.layer_sets.length
    · rw [if_pos hj2, List.getElem?_append_left hcurlt]
      exact hcur
    · rw [if_neg hj2]
      exact hcur
  have hjlt1 : j < sets1.length := by
    rw [hs1]
    by_cases hj2 : j = d.layer_sets.length
    · rw [if_pos hj2, List.length_append]
      simp only [List.length_cons, List.length_nil]
      omega
    · rw [if_neg hj2]
      omega
  have hsel : Document.selectLayerSet d j =
      .ok ({ d with layer_sets := sets1.set j (some (Document.cloneLayerSet cur)), current_set_index := j },
        [DocAction.didSwitchLayerSet j]) := by
    rw [Document.selectLayerSet, if_pos hle, ← hs1]
    dsimp only
    rw [hsets1j]
    dsimp only
    rw [hsets1cur]
  rw [hsel]
  have hd1j : (sets1.set j (some (Document.cloneLayerSet cur)))[j]? =
      some (some (Document.cloneLayerSet cur)) :=
    List.getElem?_set_eq_of_lt _ hjlt1
  refine ⟨hd1j, rfl, ?_⟩
  obtain ⟨ls', z, htog, hlen', huu', hunt'⟩ :=
    toggleLayerVisibility_spec
      { d with layer_sets := sets1.set j (some (Document.cloneLayerSet cur)), current_set_index := j }
      rows vis? (Document.cloneLayerSet cur) hd1j hrows
  show (okDoc (Document.toggleLayerVisibility
      { d with layer_sets := sets1.set j (some (Document.cloneLayerSet cur)), current_set_index := j }
      rows vis?)).bind (fun d2 => d2.layer_sets[d.current_set_index]?) =
    some (some cur)
  rw [htog]
  show (((sets1.set j (some (Document.cloneLayerSet cur))).set j
      (some ls'))[d.current_set_index]?) = _
  rw [List.getElem?_set_ne (fun he => hne he.symm),
    List.getElem?_set_ne (fun he => hne he.symm)]
  exact hsets1cur

/-- Demo document with one populated set (identifier 1) and one empty slot. -/
def docSel : Document := ⟨0, [some ⟨[prezA], none⟩, none], []⟩

/-- Claim C7 witness: selecting the empty slot 1 clones the current set
into it, and toggling visibility there leaves the source set intact. -/
theorem selectLayerSet_clone_isolated_witness :
    (okDoc (Document.selectLayerSet docSel 1)).bind (fun d1 => d1.layer_sets[1]?) =
      some (some ⟨[prezA], none⟩) ∧
    (okDoc (Document.selectLayerSet docSel 1)).map (fun d1 => d1.current_set_index) =
      some 1 ∧
    (okDoc (Document.selectLayerSet docSel 1)).bind (fun d1 =>
      (okDoc (Document.toggleLayerVisibility d1 [0] (some false))).bind
        (fun d2 => d2.layer_sets[0]?)) = some (some ⟨[prezA], none⟩) := by
  have h := selectLayerSet_clone_isolated docSel 1 ⟨[prezA], none⟩ [0] (some false)
    (by decide) (by decide) (Or.inl (by decide)) (by decide)
  exact h
